import Mathlib

/-!
Verification development for the geometric core of the
`ComfyUI_VVL_DataProcessing` point-cloud nodes.

The Python source operates on numpy float arrays.  Claims here concern the
branch structure, counting and exact algebraic identities of the algorithms,
so the embedding models coordinates as exact rationals (for the computable,
combinatorial parts: density filtering, RANSAC control flow, ground-candidate
selection, bounding boxes) and as real numbers (for the trigonometric
rotation solver).  Comparisons that the source performs on a Euclidean norm
(`np.linalg.norm(v) < eps`, `|dot(p - p0, n / ‖n‖)| <= tau`) are embedded in
the algebraically equivalent squared form (`‖v‖² < eps²`,
`dot(p - p0, n)² <= tau² * ‖n‖²`, both exact equivalences over an ordered
field for nonnegative `eps`/`tau`), so that the embedding stays inside ℚ.
-/

namespace VVL

/-- 3D vector with rational coordinates; models one row of an `N×3` numpy
array of point positions. -/
abbrev Q3 := ℚ × ℚ × ℚ

/-- Componentwise subtraction of 3-vectors (numpy `u - v`). -/
def sub3 {α : Type} [Sub α] (u v : α × α × α) : α × α × α :=
  (u.1 - v.1, u.2.1 - v.2.1, u.2.2 - v.2.2)

/-- Dot product of 3-vectors (`np.dot`). -/
def dot3 {α : Type} [Mul α] [Add α] (u v : α × α × α) : α :=
  u.1 * v.1 + u.2.1 * v.2.1 + u.2.2 * v.2.2

/-- Cross product of 3-vectors (`np.cross`). -/
def cross3 {α : Type} [Mul α] [Sub α] (u v : α × α × α) : α × α × α :=
  (u.2.1 * v.2.2 - u.2.2 * v.2.1,
   u.2.2 * v.1 - u.1 * v.2.2,
   u.1 * v.2.1 - u.2.1 * v.1)

/-- Squared Euclidean norm of a 3-vector; the source compares
`np.linalg.norm v` against thresholds, which is equivalent to comparing
this against the squared threshold. -/
def normSq3 {α : Type} [Mul α] [Add α] (v : α × α × α) : α := dot3 v v

/-- Squared Euclidean distance between two points. -/
def distSq3 (u v : Q3) : ℚ := normSq3 (sub3 u v)

/-- Minimum of a rational list (`np.min`); the source only applies it to
non-empty arrays (numpy raises on empty input), `0` is a junk value for
`[]`. -/
def listMin : List ℚ → ℚ
  | [] => 0
  | x :: xs => xs.foldl min x

/-- Maximum of a rational list (`np.max`); junk value `0` for `[]`. -/
def listMax : List ℚ → ℚ
  | [] => 0
  | x :: xs => xs.foldl max x

/-- Componentwise minimum over a point list (`np.min(vertices, axis=0)`). -/
def minPoint (pts : List Q3) : Q3 :=
  (listMin (pts.map (·.1)), listMin (pts.map (·.2.1)), listMin (pts.map (·.2.2)))

/-- Componentwise maximum over a point list (`np.max(vertices, axis=0)`). -/
def maxPoint (pts : List Q3) : Q3 :=
  (listMax (pts.map (·.1)), listMax (pts.map (·.2.1)), listMax (pts.map (·.2.2)))

/-!
### Density filter (`GLBPointCloudDensityFilter._apply_density_filter`)

`glb_point_cloud_processor/glb_point_cloud_density_filter.py`, lines 267-407.
The radius parameter below is the radius actually used for neighbour
queries, i.e. the value of `neighborhood_radius` after the optional adaptive
rescaling at lines 277-286 (that rescaling multiplies the radius by the
bounding-box diagonal norm over 10; it involves a square root and is a pure
preprocessing of the radius parameter, so it is not modelled separately).
-/

/-- Exact neighbour count of `p` within `radius` among `vertices`, minus one
for the point itself.  This is the value computed identically by the
KDTree branch (`len(kdtree.query_ball_point(...)) - 1`), the vectorised
distance-matrix branch (`(dist_matrix <= r).sum(axis=1) - 1`) and the
per-point loop branch of `_apply_density_filter`; the distance comparison
`dist <= r` is embedded as `dist² <= r²`. -/
def neighborCount (vertices : List Q3) (radius : ℚ) (p : Q3) : ℚ :=
  (vertices.countP (fun q => decide (distSq3 p q ≤ radius ^ 2)) : ℚ) - 1

/-- Voxel key of a point: `np.floor((p - bbox_min) / voxel_size)` with
`voxel_size = neighborhood_radius` (line 307-308; the `astype(np.int32)`
truncation of the already-floored value is modelled as the exact integer
floor). -/
def voxelIndex (bboxMin : Q3) (voxelSize : ℚ) (p : Q3) : ℤ × ℤ × ℤ :=
  (⌊(p.1 - bboxMin.1) / voxelSize⌋,
   ⌊(p.2.1 - bboxMin.2.1) / voxelSize⌋,
   ⌊(p.2.2 - bboxMin.2.2) / voxelSize⌋)

/-- `BIG_POINT_THRESHOLD = 200000` (line 300). -/
def bigPointThreshold : ℕ := 200000

/-- Per-point local densities (lines 288-340): above `BIG_POINT_THRESHOLD`
points, each density is `(population of the point's voxel) - 1`
(`counts[inverse_indices] - 1` over the structured-dtype `unique`);
otherwise the exact neighbour count is computed, by the KDTree branch when
scipy is available and by the distance-matrix / loop fallbacks otherwise
(all three compute the same exact counts). -/
def computeDensities (vertices : List Q3) (radius : ℚ) (scipyAvailable : Bool) :
    List ℚ :=
  if bigPointThreshold < vertices.length then
    let bboxMin := minPoint vertices
    let voxelKeys := vertices.map (voxelIndex bboxMin radius)
    voxelKeys.map (fun k => (voxelKeys.count k : ℚ) - 1)
  else if scipyAvailable then
    vertices.map (neighborCount vertices radius)
  else if vertices.length < 50000 then
    vertices.map (neighborCount vertices radius)
  else
    vertices.map (neighborCount vertices radius)

/-- Linear interpolation of a (sorted) value list at fractional rank `h`:
`v[⌊h⌋] + (h - ⌊h⌋) * (v[⌈h⌉] - v[⌊h⌋])`, numpy's default percentile
interpolation. -/
def percentileInterp (s : List ℚ) (h : ℚ) : ℚ :=
  s.getD (Int.toNat ⌊h⌋) 0 + (h - ⌊h⌋) * (s.getD (Int.toNat ⌈h⌉) 0 - s.getD (Int.toNat ⌊h⌋) 0)

/-- `np.percentile(l, q)` with the default linear interpolation: sort, then
interpolate at rank `q/100 * (len - 1)`.  Only evaluated by the source on
non-empty arrays with `0 <= q <= 100`. -/
def numpyPercentile (l : List ℚ) (q : ℚ) : ℚ :=
  percentileInterp (l.mergeSort (fun a b => decide (a ≤ b))) (q / 100 * ((l.length : ℚ) - 1))

/-- Stage A predicate (line 348): keep a point when its density reaches
`min_neighbors`. -/
def minNeighborKeep (minNeighbors d : ℚ) : Bool := decide (minNeighbors ≤ d)

/-- The Stage B percentile threshold (line 356):
`np.percentile(densities[keep_mask], (1 - density_threshold) * 100)`. -/
def densityPercentileValue (densities : List ℚ) (densityThreshold minNeighbors : ℚ) : ℚ :=
  numpyPercentile (densities.filter (minNeighborKeep minNeighbors))
    ((1 - densityThreshold) * 100)

/-- Combined Stage A + Stage B keep decision for a point of density `d`
(lines 347-364): Stage B applies only when `density_threshold > 0` and at
least one point survived Stage A, and then keeps the survivors whose density
reaches the percentile threshold. -/
def stageABKeep (densities : List ℚ) (densityThreshold minNeighbors : ℚ) (d : ℚ) : Bool :=
  minNeighborKeep minNeighbors d &&
    (if 0 < densityThreshold ∧ 0 < densities.countP (minNeighborKeep minNeighbors) then
      decide (densityPercentileValue densities densityThreshold minNeighbors ≤ d)
    else true)

/-- Full three-stage mask of `_apply_density_filter` (lines 344-385) over a
density array.  Stage C (core protection) runs only when
`preserve_core_percentage < 1.0` and some point is still kept; it restores
the excluded points of highest density until `int(n * p)` points are kept.
`np.argsort(-excluded_densities)` is embedded as a stable descending
merge-sort; numpy's introsort may order ties differently, which can change
which of several equal-density points are restored but never how many. -/
def applyDensityFilterMask (densities : List ℚ)
    (densityThreshold minNeighbors preserveCorePercentage : ℚ) : List Bool :=
  let n := densities.length
  let keepAB : ℕ → Bool := fun i =>
    stageABKeep densities densityThreshold minNeighbors (densities.getD i 0)
  let currentPoints := (List.range n).countP keepAB
  let targetCorePoints := (⌊(n : ℚ) * preserveCorePercentage⌋).toNat
  if preserveCorePercentage < 1 ∧ 0 < currentPoints ∧ currentPoints < targetCorePoints then
    let excludedIndices := (List.range n).filter (fun i => ! keepAB i)
    let sortedIndices :=
      excludedIndices.mergeSort (fun i j => decide (densities.getD j 0 ≤ densities.getD i 0))
    let restored := sortedIndices.take (targetCorePoints - currentPoints)
    (List.range n).map (fun i => keepAB i || restored.contains i)
  else
    (List.range n).map keepAB

/-- End-to-end keep mask of `_apply_density_filter` on a point set: local
densities followed by the three filtering stages. -/
def applyDensityFilter (vertices : List Q3)
    (densityThreshold radius minNeighbors preserveCorePercentage : ℚ)
    (scipyAvailable : Bool) : List Bool :=
  applyDensityFilterMask (computeDensities vertices radius scipyAvailable)
    densityThreshold minNeighbors preserveCorePercentage

/-- Number of retained points of a keep mask (`np.sum(keep_mask)`). -/
def retainedCount (mask : List Bool) : ℕ := mask.count true

/-!
### Helper lemmas about folds, sorted lists and the interpolated percentile
-/

lemma foldl_min_le_init (l : List ℚ) (a : ℚ) : l.foldl min a ≤ a := by
  induction l generalizing a with
  | nil => simp
  | cons x xs ih => exact le_trans (ih (min a x)) (min_le_left a x)

lemma foldl_min_le_of_mem {l : List ℚ} {y : ℚ} (hy : y ∈ l) (a : ℚ) : l.foldl min a ≤ y := by
  induction l generalizing a with
  | nil => cases hy
  | cons x xs ih =>
    rcases List.mem_cons.1 hy with h | h
    · subst h
      exact le_trans (foldl_min_le_init xs (min a y)) (min_le_right a y)
    · exact ih h (min a x)

lemma foldl_min_mem (l : List ℚ) (a : ℚ) : l.foldl min a = a ∨ l.foldl min a ∈ l := by
  induction l generalizing a with
  | nil => exact Or.inl rfl
  | cons x xs ih =>
    rcases ih (min a x) with h | h
    · rcases min_choice a x with hc | hc
      · exact Or.inl (by rw [List.foldl_cons, h, hc])
      · exact Or.inr (by rw [List.foldl_cons, h, hc]; exact List.mem_cons_self x xs)
    · exact Or.inr (List.mem_cons_of_mem x h)

lemma foldl_max_init_le (l : List ℚ) (a : ℚ) : a ≤ l.foldl max a := by
  induction l generalizing a with
  | nil => simp
  | cons x xs ih => exact le_trans (le_max_left a x) (ih (max a x))

lemma foldl_max_of_mem_le {l : List ℚ} {y : ℚ} (hy : y ∈ l) (a : ℚ) : y ≤ l.foldl max a := by
  induction l generalizing a with
  | nil => cases hy
  | cons x xs ih =>
    rcases List.mem_cons.1 hy with h | h
    · subst h
      exact le_trans (le_max_right a y) (foldl_max_init_le xs (max a y))
    · exact ih h (max a x)

lemma foldl_max_mem (l : List ℚ) (a : ℚ) : l.foldl max a = a ∨ l.foldl max a ∈ l := by
  induction l generalizing a with
  | nil => exact Or.inl rfl
  | cons x xs ih =>
    rcases ih (max a x) with h | h
    · rcases max_choice a x with hc | hc
      · exact Or.inl (by rw [List.foldl_cons, h, hc])
      · exact Or.inr (by rw [List.foldl_cons, h, hc]; exact List.mem_cons_self x xs)
    · exact Or.inr (List.mem_cons_of_mem x h)

lemma listMin_le_of_mem {l : List ℚ} {y : ℚ} (hy : y ∈ l) : listMin l ≤ y := by
  cases l with
  | nil => cases hy
  | cons x xs =>
    rcases List.mem_cons.1 hy with h | h
    · subst h; exact foldl_min_le_init xs y
    · exact foldl_min_le_of_mem h x

lemma listMin_mem {l : List ℚ} (hl : l ≠ []) : listMin l ∈ l := by
  cases l with
  | nil => exact absurd rfl hl
  | cons x xs =>
    rcases foldl_min_mem xs x with h | h
    · rw [listMin, h]; exact List.mem_cons_self x xs
    · exact List.mem_cons_of_mem x h

lemma le_listMax_of_mem {l : List ℚ} {y : ℚ} (hy : y ∈ l) : y ≤ listMax l := by
  cases l with
  | nil => cases hy
  | cons x xs =>
    rcases List.mem_cons.1 hy with h | h
    · subst h; exact foldl_max_init_le xs y
    · exact foldl_max_of_mem_le h x

lemma listMax_mem {l : List ℚ} (hl : l ≠ []) : listMax l ∈ l := by
  cases l with
  | nil => exact absurd rfl hl
  | cons x xs =>
    rcases foldl_max_mem xs x with h | h
    · rw [listMax, h]; exact List.mem_cons_self x xs
    · exact List.mem_cons_of_mem x h

lemma countP_add_countP_not (l : List α) (p : α → Bool) :
    l.countP p + l.countP (fun a => !p a) = l.length := by
  induction l with
  | nil => simp
  | cons x xs ih => by_cases h : p x <;> simp [h, List.countP_cons] <;> omega

lemma count_true_map {α : Type} (l : List α) (f : α → Bool) :
    (l.map f).count true = l.countP f := by
  rw [List.count, List.countP_map]
  exact List.countP_congr (fun a _ => by simp)

lemma countP_range_getD (l : List ℚ) (f : ℚ → Bool) :
    (List.range l.length).countP (fun i => f (l.getD i 0)) = l.countP f := by
  induction l with
  | nil => simp
  | cons x xs ih =>
    rw [List.length_cons, List.range_succ_eq_map, List.countP_cons, List.countP_map]
    have h1 : ((fun i => f ((x :: xs).getD i 0)) ∘ Nat.succ) = fun i => f (xs.getD i 0) := by
      funext i
      simp [List.getD_cons_succ]
    rw [h1, ih, List.countP_cons]
    simp [List.getD_cons_zero]

lemma countP_contains_of_nodup {R : List ℕ} {n : ℕ} (hR : R.Nodup)
    (hb : ∀ i ∈ R, i < n) : (List.range n).countP (fun i => R.contains i) = R.length := by
  rw [List.countP_eq_length_filter]
  have hmem : ∀ a : ℕ, a ∈ (List.range n).filter (fun i => R.contains i) ↔ a ∈ R := by
    intro a
    rw [List.mem_filter, List.mem_range]
    constructor
    · rintro ⟨-, h⟩
      exact List.elem_iff.mp h
    · intro h
      exact ⟨hb a h, List.elem_iff.mpr h⟩
  have hperm : List.Perm ((List.range n).filter (fun i => R.contains i)) R :=
    (List.perm_ext_iff_of_nodup ((List.nodup_range n).filter _) hR).mpr hmem
  exact hperm.length_eq

lemma countP_or_disjoint (l : List ℕ) (q r : ℕ → Bool)
    (hdis : ∀ i ∈ l, r i = true → q i = false) :
    l.countP (fun i => q i || r i) = l.countP q + l.countP r := by
  induction l with
  | nil => simp
  | cons x xs ih =>
    have ih2 := ih (fun i hi => hdis i (List.mem_cons_of_mem x hi))
    by_cases hr : r x
    · have hq : q x = false := hdis x (List.mem_cons_self x xs) hr
      simp [List.countP_cons, hr, hq, ih2]
      omega
    · by_cases hq : q x <;>
        simp [List.countP_cons, hr, hq, ih2] <;> omega

lemma sorted_getD_mono {s : List ℚ} (hs : s.Sorted (· ≤ ·)) {i j : ℕ}
    (hij : i ≤ j) (hj : j < s.length) : s.getD i 0 ≤ s.getD j 0 := by
  have hi : i < s.length := lt_of_le_of_lt hij hj
  rw [List.getD_eq_getElem?_getD, List.getD_eq_getElem?_getD,
    List.getElem?_eq_getElem hi, List.getElem?_eq_getElem hj]
  simp only [Option.getD_some]
  rcases lt_or_eq_of_le hij with h | h
  · have := List.pairwise_iff_get.mp hs ⟨i, hi⟩ ⟨j, hj⟩ (by exact h)
    simpa using this
  · subst h; exact le_refl _

lemma length_pos_of_rank {s : List ℚ} {h : ℚ} (h0 : 0 ≤ h)
    (hub : h ≤ (s.length : ℚ) - 1) : 1 ≤ s.length := by
  rcases Nat.eq_zero_or_pos s.length with hz | hz
  · rw [hz] at hub; push_cast at hub; linarith
  · exact hz

lemma percentileInterp_ge_floor {s : List ℚ} (hs : s.Sorted (· ≤ ·)) {h : ℚ}
    (h0 : 0 ≤ h) (hub : h ≤ (s.length : ℚ) - 1) :
    s.getD (Int.toNat ⌊h⌋) 0 ≤ percentileInterp s h := by
  have hfl0 : 0 ≤ ⌊h⌋ := Int.le_floor.mpr (by exact_mod_cast h0)
  have hcl : ⌈h⌉ ≤ (s.length : ℤ) - 1 := Int.ceil_le.mpr (by push_cast; linarith)
  have hflc : ⌊h⌋ ≤ ⌈h⌉ := Int.floor_le_ceil h
  have hy : s.getD (Int.toNat ⌊h⌋) 0 ≤ s.getD (Int.toNat ⌈h⌉) 0 :=
    sorted_getD_mono hs (by omega) (by omega)
  have hfr0 : 0 ≤ h - ⌊h⌋ := by
    have := Int.floor_le h; linarith
  unfold percentileInterp
  nlinarith [mul_nonneg hfr0 (sub_nonneg.mpr hy)]

lemma percentileInterp_le_ceil {s : List ℚ} (hs : s.Sorted (· ≤ ·)) {h : ℚ}
    (h0 : 0 ≤ h) (hub : h ≤ (s.length : ℚ) - 1) :
    percentileInterp s h ≤ s.getD (Int.toNat ⌈h⌉) 0 := by
  have hfl0 : 0 ≤ ⌊h⌋ := Int.le_floor.mpr (by exact_mod_cast h0)
  have hcl : ⌈h⌉ ≤ (s.length : ℤ) - 1 := Int.ceil_le.mpr (by push_cast; linarith)
  have hflc : ⌊h⌋ ≤ ⌈h⌉ := Int.floor_le_ceil h
  have hy : s.getD (Int.toNat ⌊h⌋) 0 ≤ s.getD (Int.toNat ⌈h⌉) 0 :=
    sorted_getD_mono hs (by omega) (by omega)
  have hfr1 : h - ⌊h⌋ < 1 := by
    have := Int.sub_one_lt_floor h
    linarith
  unfold percentileInterp
  nlinarith [mul_nonneg (sub_nonneg.mpr (le_of_lt hfr1)) (sub_nonneg.mpr hy)]

lemma percentileInterp_mono {s : List ℚ} (hs : s.Sorted (· ≤ ·)) {h h' : ℚ}
    (h0 : 0 ≤ h) (hhh : h ≤ h') (hub : h' ≤ (s.length : ℚ) - 1) :
    percentileInterp s h ≤ percentileInterp s h' := by
  have h0' : 0 ≤ h' := le_trans h0 hhh
  have hubh : h ≤ (s.length : ℚ) - 1 := le_trans hhh hub
  have hlen1 : 1 ≤ s.length := length_pos_of_rank h0' hub
  have hfl0 : 0 ≤ ⌊h⌋ := Int.le_floor.mpr (by exact_mod_cast h0)
  have hfl0' : 0 ≤ ⌊h'⌋ := Int.le_floor.mpr (by exact_mod_cast h0')
  have hcl : ⌈h⌉ ≤ (s.length : ℤ) - 1 := Int.ceil_le.mpr (by push_cast; linarith)
  have hcl' : ⌈h'⌉ ≤ (s.length : ℤ) - 1 := Int.ceil_le.mpr (by push_cast; linarith)
  have hflc : ⌊h⌋ ≤ ⌈h⌉ := Int.floor_le_ceil h
  have hflc' : ⌊h'⌋ ≤ ⌈h'⌉ := Int.floor_le_ceil h'
  have hclf : ⌈h⌉ ≤ ⌊h⌋ + 1 := Int.ceil_le_floor_add_one h
  rcases lt_or_eq_of_le (Int.floor_le_floor hhh) with hff | hff
  · have h1 : percentileInterp s h ≤ s.getD (Int.toNat ⌈h⌉) 0 :=
      percentileInterp_le_ceil hs h0 hubh
    have h2 : s.getD (Int.toNat ⌈h⌉) 0 ≤ s.getD (Int.toNat ⌊h'⌋) 0 :=
      sorted_getD_mono hs (by omega) (by omega)
    have h3 : s.getD (Int.toNat ⌊h'⌋) 0 ≤ percentileInterp s h' :=
      percentileInterp_ge_floor hs h0' hub
    linarith
  · rcases eq_or_lt_of_le (Int.floor_le h) with heq | hlt
    · have hz : h - ⌊h⌋ = 0 := by linarith
      have h3 : s.getD (Int.toNat ⌊h'⌋) 0 ≤ percentileInterp s h' :=
        percentileInterp_ge_floor hs h0' hub
      rw [← hff] at h3
      calc percentileInterp s h = s.getD (Int.toNat ⌊h⌋) 0 := by
            unfold percentileInterp; rw [hz]; ring
        _ ≤ percentileInterp s h' := h3
    · have hlt' : (⌊h'⌋ : ℚ) < h' := by
        rw [← hff]; exact lt_of_lt_of_le hlt hhh
      have hc1 : ⌈h⌉ = ⌊h⌋ + 1 := by
        refine le_antisymm hclf ?_
        have hne : ⌊h⌋ < ⌈h⌉ := by
          by_contra hcon
          push_neg at hcon
          have hcc : h ≤ (⌊h⌋ : ℚ) := le_trans (Int.le_ceil h) (by exact_mod_cast hcon)
          linarith
        omega
      have hc1' : ⌈h'⌉ = ⌊h'⌋ + 1 := by
        refine le_antisymm (Int.ceil_le_floor_add_one h') ?_
        have hne : ⌊h'⌋ < ⌈h'⌉ := by
          by_contra hcon
          push_neg at hcon
          have hcc : h' ≤ (⌊h'⌋ : ℚ) := le_trans (Int.le_ceil h') (by exact_mod_cast hcon)
          linarith
        omega
      have hy : s.getD (Int.toNat ⌊h⌋) 0 ≤ s.getD (Int.toNat (⌊h⌋ + 1)) 0 :=
        sorted_getD_mono hs (by omega) (by rw [hc1'] at hcl'; omega)
      unfold percentileInterp
      rw [hc1, hc1', ← hff]
      nlinarith [mul_nonneg (sub_nonneg.mpr hhh) (sub_nonneg.mpr hy)]

lemma getD_drop (s : List ℚ) (j k : ℕ) : (s.drop j).getD k 0 = s.getD (j + k) 0 := by
  rw [List.getD_eq_getElem?_getD, List.getD_eq_getElem?_getD, List.getElem?_drop]

lemma percentileInterp_drop (s : List ℚ) (j : ℕ) {h : ℚ} (h0 : 0 ≤ h) :
    percentileInterp (s.drop j) h = percentileInterp s (h + j) := by
  have hfl0 : 0 ≤ ⌊h⌋ := Int.le_floor.mpr (by exact_mod_cast h0)
  have hcl0 : 0 ≤ ⌈h⌉ := le_trans hfl0 (Int.floor_le_ceil h)
  have hfj : ⌊h + (j : ℚ)⌋ = ⌊h⌋ + (j : ℤ) := Int.floor_add_nat h j
  have hcj : ⌈h + (j : ℚ)⌉ = ⌈h⌉ + (j : ℤ) := Int.ceil_add_nat h j
  have e1 : Int.toNat (⌊h⌋ + (j : ℤ)) = j + Int.toNat ⌊h⌋ := by omega
  have e2 : Int.toNat (⌈h⌉ + (j : ℤ)) = j + Int.toNat ⌈h⌉ := by omega
  unfold percentileInterp
  rw [hfj, hcj, e1, e2, getD_drop, getD_drop]
  push_cast
  ring

lemma sorted_filter_ge_eq_drop {s : List ℚ} (hs : s.Sorted (· ≤ ·)) (m : ℚ) :
    s.filter (minNeighborKeep m) = s.drop (s.countP (fun d => decide (d < m))) := by
  induction s with
  | nil => simp
  | cons x xs ih =>
    have hs' : xs.Sorted (· ≤ ·) := hs.of_cons
    by_cases hx : x < m
    · have h1 : minNeighborKeep m x = false := by
        simp only [minNeighborKeep, decide_eq_false_iff_not]
        linarith
      rw [List.filter_cons_of_neg (by simp [h1]), List.countP_cons]
      have hxd : decide (x < m) = true := decide_eq_true hx
      rw [hxd, if_pos rfl, List.drop_succ_cons]
      exact ih hs'
    · have hmx : m ≤ x := not_lt.mp hx
      have hall : ∀ y ∈ x :: xs, m ≤ y := by
        intro y hy
        rcases List.mem_cons.1 hy with h | h
        · subst h; exact hmx
        · exact le_trans hmx (List.rel_of_sorted_cons hs y h)
      have hcz : (x :: xs).countP (fun d => decide (d < m)) = 0 := by
        rw [List.countP_eq_zero]
        intro y hy
        simp only [decide_eq_true_iff, not_lt]
        exact hall y hy
      rw [hcz, List.drop_zero]
      apply List.filter_eq_self.mpr
      intro y hy
      simp only [minNeighborKeep, decide_eq_true_iff]
      exact hall y hy

lemma mergeSort_le_sorted (l : List ℚ) :
    (l.mergeSort (fun a b => decide (a ≤ b))).Sorted (· ≤ ·) :=
  List.sorted_mergeSort' l

lemma filter_keep_mergeSort_comm (ds : List ℚ) (m : ℚ) :
    (ds.filter (minNeighborKeep m)).mergeSort (fun a b => decide (a ≤ b)) =
      (ds.mergeSort (fun a b => decide (a ≤ b))).filter (minNeighborKeep m) :=
  List.eq_of_perm_of_sorted
    (((ds.filter (minNeighborKeep m)).mergeSort_perm _).trans
      ((ds.mergeSort_perm _).symm.filter _))
    (mergeSort_le_sorted _)
    (List.Pairwise.filter _ (mergeSort_le_sorted ds))

lemma countP_keep_add_countP_lt (s : List ℚ) (m : ℚ) :
    s.countP (minNeighborKeep m) + s.countP (fun d => decide (d < m)) = s.length := by
  have h := countP_add_countP_not s (minNeighborKeep m)
  have he : s.countP (fun d => decide (d < m)) = s.countP (fun d => !(minNeighborKeep m d)) := by
    apply List.countP_congr
    intro d _
    simp [minNeighborKeep, not_le]
  rw [he]
  exact h

set_option maxHeartbeats 2000000 in
lemma densityPercentileValue_mono (ds : List ℚ) {t m₁ m₂ : ℚ}
    (hm : m₁ ≤ m₂) (ht0 : 0 ≤ t) (ht1 : t ≤ 1)
    (hpos : 0 < ds.countP (minNeighborKeep m₂)) :
    densityPercentileValue ds t m₁ ≤ densityPercentileValue ds t m₂ := by
  have hL0 : 0 ≤ (1 - t) * 100 := by nlinarith
  have hL100 : (1 - t) * 100 ≤ 100 := by nlinarith
  set s := ds.mergeSort (fun a b => decide (a ≤ b)) with hsdef
  have hs : s.Sorted (· ≤ ·) := mergeSort_le_sorted ds
  have hperm : List.Perm s ds := ds.mergeSort_perm _
  have hk1 : (ds.filter (minNeighborKeep m₁)).length = s.countP (minNeighborKeep m₁) := by
    rw [← List.countP_eq_length_filter, hperm.countP_eq]
  have hk2 : (ds.filter (minNeighborKeep m₂)).length = s.countP (minNeighborKeep m₂) := by
    rw [← List.countP_eq_length_filter, hperm.countP_eq]
  have hkmono : s.countP (minNeighborKeep m₂) ≤ s.countP (minNeighborKeep m₁) := by
    apply List.countP_mono_left
    intro d _ hd
    simp only [minNeighborKeep, decide_eq_true_iff] at hd ⊢
    linarith
  have hk2pos : 0 < s.countP (minNeighborKeep m₂) := by
    rw [hperm.countP_eq]; exact hpos
  have hsplit1 := countP_keep_add_countP_lt s m₁
  have hsplit2 := countP_keep_add_countP_lt s m₂
  set k₁ := s.countP (minNeighborKeep m₁) with hk₁def
  set k₂ := s.countP (minNeighborKeep m₂) with hk₂def
  set j₁ := s.countP (fun d => decide (d < m₁)) with hj₁def
  set j₂ := s.countP (fun d => decide (d < m₂)) with hj₂def
  have hj12 : j₁ ≤ j₂ := by
    apply List.countP_mono_left
    intro d _ hd
    simp only [decide_eq_true_iff] at hd ⊢
    linarith
  have hq0 : 0 ≤ (1 - t) * 100 / 100 := by positivity
  have hq1 : (1 - t) * 100 / 100 ≤ 1 := by linarith
  have hk1' : (1:ℚ) ≤ (k₁ : ℚ) := by exact_mod_cast le_trans hk2pos hkmono
  have hk2' : (1:ℚ) ≤ (k₂ : ℚ) := by exact_mod_cast hk2pos
  have hjcast : (j₁ : ℚ) ≤ (j₂ : ℚ) := by exact_mod_cast hj12
  have hkcast : (k₂ : ℚ) ≤ (k₁ : ℚ) := by exact_mod_cast hkmono
  have e1 : (k₁ : ℚ) + (j₁ : ℚ) = (s.length : ℚ) := by exact_mod_cast hsplit1
  have e2 : (k₂ : ℚ) + (j₂ : ℚ) = (s.length : ℚ) := by exact_mod_cast hsplit2
  have hj₁0 : (0:ℚ) ≤ (j₁ : ℚ) := Nat.cast_nonneg _
  have hj₂0 : (0:ℚ) ≤ (j₂ : ℚ) := Nat.cast_nonneg _
  unfold densityPercentileValue numpyPercentile
  rw [filter_keep_mergeSort_comm ds m₁, filter_keep_mergeSort_comm ds m₂, ← hsdef,
    sorted_filter_ge_eq_drop hs m₁, sorted_filter_ge_eq_drop hs m₂, ← hj₁def, ← hj₂def,
    hk1, hk2]
  have hh10 : 0 ≤ (1 - t) * 100 / 100 * ((k₁ : ℚ) - 1) := by nlinarith
  have hh20 : 0 ≤ (1 - t) * 100 / 100 * ((k₂ : ℚ) - 1) := by nlinarith
  rw [percentileInterp_drop s j₁ hh10, percentileInterp_drop s j₂ hh20]
  apply percentileInterp_mono hs
  · linarith
  · have key : (1 - t) * 100 / 100 * ((k₁ : ℚ) - k₂) ≤ (k₁ : ℚ) - k₂ := by
      nlinarith [mul_nonneg (by linarith : (0:ℚ) ≤ 1 - (1 - t) * 100 / 100)
        (by linarith : (0:ℚ) ≤ (k₁ : ℚ) - k₂)]
    have hcast : (k₁ : ℚ) - (k₂ : ℚ) = (j₂ : ℚ) - (j₁ : ℚ) := by linarith
    nlinarith
  · have key : (1 - t) * 100 / 100 * ((k₂ : ℚ) - 1) ≤ (k₂ : ℚ) - 1 := by
      nlinarith [mul_nonneg (by linarith : (0:ℚ) ≤ 1 - (1 - t) * 100 / 100)
        (by linarith : (0:ℚ) ≤ (k₂ : ℚ) - 1)]
    linarith


lemma stageABKeep_mono {ds : List ℚ} {t m₁ m₂ d : ℚ}
    (hm : m₁ ≤ m₂) (ht0 : 0 ≤ t) (ht1 : t ≤ 1) (hd : d ∈ ds)
    (h : stageABKeep ds t m₂ d = true) : stageABKeep ds t m₁ d = true := by
  unfold stageABKeep at h ⊢
  rw [Bool.and_eq_true] at h ⊢
  obtain ⟨h1, h2⟩ := h
  have hd2 : m₂ ≤ d := by simpa [minNeighborKeep] using h1
  refine ⟨by simp only [minNeighborKeep, decide_eq_true_iff]; linarith, ?_⟩
  split_ifs with hg
  · have hpos2 : 0 < ds.countP (minNeighborKeep m₂) :=
      List.countP_pos.mpr ⟨d, hd, h1⟩
    rw [if_pos ⟨hg.1, hpos2⟩] at h2
    have hq : densityPercentileValue ds t m₂ ≤ d := by simpa using h2
    have hmono := densityPercentileValue_mono ds hm ht0 ht1 hpos2
    simp only [decide_eq_true_iff]
    linarith
  · rfl

lemma stageABKeep_exists {ds : List ℚ} {t m : ℚ}
    (ht0 : 0 ≤ t) (ht1 : t ≤ 1) (hpos : 0 < ds.countP (minNeighborKeep m)) :
    ∃ d ∈ ds, stageABKeep ds t m d = true := by
  by_cases hg : 0 < t ∧ 0 < ds.countP (minNeighborKeep m)
  case neg =>
    obtain ⟨d, hd, hkeep⟩ := List.countP_pos.mp hpos
    refine ⟨d, hd, ?_⟩
    unfold stageABKeep
    rw [Bool.and_eq_true, if_neg hg]
    exact ⟨hkeep, rfl⟩
  case pos =>
    have hs : ((ds.filter (minNeighborKeep m)).mergeSort
        (fun a b => decide (a ≤ b))).Sorted (· ≤ ·) := mergeSort_le_sorted _
    have hperm := (ds.filter (minNeighborKeep m)).mergeSort_perm
      (fun a b => decide (a ≤ b))
    have hflen : 0 < (ds.filter (minNeighborKeep m)).length := by
      rw [← List.countP_eq_length_filter]; exact hpos
    set s := (ds.filter (minNeighborKeep m)).mergeSort (fun a b => decide (a ≤ b)) with hsdef
    have hslen : 0 < s.length := by rw [hperm.length_eq]; exact hflen
    set dstar := s.getD (s.length - 1) 0 with hdstar
    have hdmem_s : dstar ∈ s := by
      rw [hdstar, List.getD_eq_getElem?_getD, List.getElem?_eq_getElem (by omega)]
      exact List.getElem_mem _
    have hdmem_f : dstar ∈ ds.filter (minNeighborKeep m) := hperm.mem_iff.mp hdmem_s
    have hdds : dstar ∈ ds := (List.mem_filter.mp hdmem_f).1
    have hdkeep : minNeighborKeep m dstar = true := (List.mem_filter.mp hdmem_f).2
    refine ⟨dstar, hdds, ?_⟩
    unfold stageABKeep
    rw [Bool.and_eq_true, if_pos hg]
    refine ⟨hdkeep, ?_⟩
    have hlen1 : (1:ℚ) ≤ ((ds.filter (minNeighborKeep m)).length : ℚ) := by
      exact_mod_cast hflen
    have hq0 : 0 ≤ (1 - t) * 100 / 100 := by linarith
    have hq1 : (1 - t) * 100 / 100 ≤ 1 := by linarith
    have hh0 : 0 ≤ (1 - t) * 100 / 100 * (((ds.filter (minNeighborKeep m)).length : ℚ) - 1) := by
      nlinarith
    have hhub : (1 - t) * 100 / 100 * (((ds.filter (minNeighborKeep m)).length : ℚ) - 1) ≤
        (s.length : ℚ) - 1 := by
      have he : (s.length : ℚ) = ((ds.filter (minNeighborKeep m)).length : ℚ) := by
        exact_mod_cast hperm.length_eq
      nlinarith [mul_nonneg (by linarith : (0:ℚ) ≤ 1 - (1 - t) * 100 / 100)
        (by linarith : (0:ℚ) ≤ ((ds.filter (minNeighborKeep m)).length : ℚ) - 1)]
    have hle := percentileInterp_le_ceil hs hh0 hhub
    have hcl : ⌈(1 - t) * 100 / 100 * (((ds.filter (minNeighborKeep m)).length : ℚ) - 1)⌉ ≤
        (s.length : ℤ) - 1 := Int.ceil_le.mpr (by push_cast; push_cast at hhub; linarith)
    have hfl0 : 0 ≤ ⌊(1 - t) * 100 / 100 * (((ds.filter (minNeighborKeep m)).length : ℚ) - 1)⌋ :=
      Int.le_floor.mpr (by exact_mod_cast hh0)
    have hflc := Int.floor_le_ceil
      ((1 - t) * 100 / 100 * (((ds.filter (minNeighborKeep m)).length : ℚ) - 1))
    have hlast : s.getD (Int.toNat
        ⌈(1 - t) * 100 / 100 * (((ds.filter (minNeighborKeep m)).length : ℚ) - 1)⌉) 0 ≤ dstar := by
      rw [hdstar]
      exact sorted_getD_mono hs (by omega) (by omega)
    simp only [decide_eq_true_iff]
    unfold densityPercentileValue numpyPercentile
    rw [← hsdef]
    linarith

lemma computeDensities_length (vertices : List Q3) (r : ℚ) (b : Bool) :
    (computeDensities vertices r b).length = vertices.length := by
  unfold computeDensities
  split_ifs <;> simp

lemma getD_mem_of_lt {ds : List ℚ} {i : ℕ} (h : i < ds.length) : ds.getD i 0 ∈ ds := by
  rw [List.getD_eq_getElem?_getD, List.getElem?_eq_getElem h]
  exact List.getElem_mem _

lemma applyDensityFilterMask_core_disabled (ds : List ℚ) (t m : ℚ) :
    applyDensityFilterMask ds t m 1 =
      (List.range ds.length).map (fun i => stageABKeep ds t m (ds.getD i 0)) := by
  unfold applyDensityFilterMask
  rw [if_neg]
  rintro ⟨h, -⟩
  exact lt_irrefl 1 h


lemma applyDensityFilterMask_core_count (ds : List ℚ) (t m p : ℚ)
    (hp : p < 1)
    (hpos : 0 < (List.range ds.length).countP
      (fun i => stageABKeep ds t m (ds.getD i 0))) :
    (⌊(ds.length : ℚ) * p⌋).toNat ≤ retainedCount (applyDensityFilterMask ds t m p) := by
  have htarget_le : (⌊(ds.length : ℚ) * p⌋).toNat ≤ ds.length := by
    have hmul : (ds.length : ℚ) * p ≤ (ds.length : ℚ) := by
      nlinarith [Nat.cast_nonneg (α := ℚ) ds.length]
    have h1 : ⌊(ds.length : ℚ) * p⌋ ≤ (ds.length : ℤ) := by
      calc ⌊(ds.length : ℚ) * p⌋ ≤ ⌊(ds.length : ℚ)⌋ := Int.floor_le_floor hmul
        _ = (ds.length : ℤ) := Int.floor_natCast ds.length
    omega
  unfold retainedCount applyDensityFilterMask
  by_cases hct : (List.range ds.length).countP
      (fun i => stageABKeep ds t m (ds.getD i 0)) <
      (⌊(ds.length : ℚ) * p⌋).toNat
  · rw [if_pos ⟨hp, hpos, hct⟩, count_true_map]
    set kAB : ℕ → Bool := fun i => stageABKeep ds t m (ds.getD i 0) with hkAB
    set current := (List.range ds.length).countP kAB with hcur
    set target := (⌊(ds.length : ℚ) * p⌋).toNat with htgt
    set excluded := (List.range ds.length).filter (fun i => ! kAB i) with hexc
    set sortedIdx := excluded.mergeSort
      (fun i j => decide (ds.getD j 0 ≤ ds.getD i 0)) with hsi
    set restored := sortedIdx.take (target - current) with hrest
    have hperm : List.Perm sortedIdx excluded := excluded.mergeSort_perm _
    have hexnodup : excluded.Nodup := (List.nodup_range ds.length).filter _
    have hrsub : ∀ i ∈ restored, i ∈ excluded := fun i hi =>
      hperm.mem_iff.mp (List.mem_of_mem_take hi)
    have hrnodup : restored.Nodup :=
      ((List.take_sublist _ _).nodup (hperm.nodup_iff.mpr hexnodup))
    have hrexc : ∀ i ∈ restored, kAB i = false := by
      intro i hi
      have := List.mem_filter.mp (hrsub i hi)
      simpa using this.2
    have hrbound : ∀ i ∈ restored, i < ds.length := by
      intro i hi
      exact List.mem_range.mp (List.mem_filter.mp (hrsub i hi)).1
    have hexlen : excluded.length = ds.length - current := by
      have h1 : excluded.length = (List.range ds.length).countP (fun i => ! kAB i) := by
        rw [hexc, ← List.countP_eq_length_filter]
      have h2 := countP_add_countP_not (List.range ds.length) kAB
      rw [List.length_range] at h2
      omega
    have hrlen : restored.length = target - current := by
      rw [hrest, List.length_take, hperm.length_eq, hexlen]
      omega
    have hsplit : (List.range ds.length).countP (fun i => kAB i || restored.contains i) =
        current + restored.length := by
      rw [countP_or_disjoint _ _ _ (fun i _ hc => hrexc i (List.elem_iff.mp hc)), hcur]
      congr 1
      exact countP_contains_of_nodup hrnodup hrbound
    rw [hsplit, hrlen]
    omega
  · rw [if_neg (by rintro ⟨-, -, h⟩; exact hct h), count_true_map]
    omega

/-- C1 as stated by the spec: with `preserve_core_percentage = 1.0` the density
filter would always retain all `N = ⌈1.0 * N⌉` points.  This is false on the
code: the Stage C core-protection block is guarded by
`preserve_core_percentage < 1.0`, so at exactly `1.0` it is skipped and
Stages A/B drop points unconditionally.  Concretely, two points at distance
10 with radius 1 and `min_neighbors = 5` both fail Stage A and the mask
retains 0 < 2 points. -/
theorem density_filter_core_full_retention_counterexample :
    ¬ (∀ (vertices : List Q3) (t r m : ℚ) (scipy : Bool), vertices ≠ [] →
        vertices.length ≤ retainedCount (applyDensityFilter vertices t r m 1 scipy)) := by
  intro hclaim
  have h := hclaim [((0:ℚ),0,0), (10,0,0)] (1/2) 1 5 false (by simp)
  norm_num [applyDensityFilter, applyDensityFilterMask, computeDensities, neighborCount,
    stageABKeep, minNeighborKeep, distSq3, normSq3, sub3, dot3, retainedCount,
    bigPointThreshold, List.countP_cons, List.range_succ, List.count_cons] at h

/-- C1 (amended): for every point set and configuration with
`preserve_core_percentage < 1.0`, if at least one point's neighbour count
reaches `min_neighbors`, the keep mask retains at least
`⌊preserve_core_percentage * N⌋` points (`int(n_points * p)` in the source);
at exactly `1.0` the Stage C block is skipped (see the counterexample). -/
theorem density_filter_core_protection_floor
    (vertices : List Q3) (t r m p : ℚ) (scipy : Bool)
    (hp : p < 1) (ht0 : 0 ≤ t) (ht1 : t ≤ 1)
    (hpos : 0 < (computeDensities vertices r scipy).countP (minNeighborKeep m)) :
    (⌊(vertices.length : ℚ) * p⌋).toNat ≤
      retainedCount (applyDensityFilter vertices t r m p scipy) := by
  unfold applyDensityFilter
  have hlen : (computeDensities vertices r scipy).length = vertices.length :=
    computeDensities_length vertices r scipy
  rw [← hlen]
  apply applyDensityFilterMask_core_count _ t m p hp
  rw [countP_range_getD]
  obtain ⟨d, hd, hk⟩ := stageABKeep_exists ht0 ht1 hpos
  exact List.countP_pos.mpr ⟨d, hd, hk⟩

/-- Witness for C1 (amended) at a concrete input: three collinear points
within radius 10 of each other, `p = 1/2`, `min_neighbors = 1`. -/
theorem density_filter_core_protection_floor_witness :
    ((1/2:ℚ) < 1 ∧ (0:ℚ) ≤ 1/2 ∧ (1/2:ℚ) ≤ 1 ∧
      0 < (computeDensities [((0:ℚ),0,0), (1,0,0), (2,0,0)] 10 true).countP
        (minNeighborKeep 1)) ∧
    (⌊(([((0:ℚ),0,0), (1,0,0), (2,0,0)] : List Q3).length : ℚ) * (1/2)⌋).toNat ≤
      retainedCount (applyDensityFilter [((0:ℚ),0,0), (1,0,0), (2,0,0)] (1/2) 10 1 (1/2) true) :=
  ⟨⟨by norm_num, by norm_num, by norm_num,
    by norm_num [computeDensities, neighborCount, minNeighborKeep, distSq3, normSq3,
      sub3, dot3, bigPointThreshold, List.countP_cons]⟩,
   density_filter_core_protection_floor _ _ _ _ _ _ (by norm_num) (by norm_num) (by norm_num)
    (by norm_num [computeDensities, neighborCount, minNeighborKeep, distSq3, normSq3,
      sub3, dot3, bigPointThreshold, List.countP_cons])⟩

/-- C5: with Stage C disabled (`preserve_core_percentage = 1.0`, for which the
source skips the core-protection block) and radius, density threshold and
backend fixed, the number of retained points is monotonically non-increasing
in `min_neighbors`: the Stage A cut only shrinks with a larger threshold, and
the Stage B percentile threshold computed over the smaller survivor set can
only rise. -/
theorem density_filter_monotone_min_neighbors
    (vertices : List Q3) (t r m₁ m₂ : ℚ) (scipy : Bool)
    (hm : m₁ ≤ m₂) (ht0 : 0 ≤ t) (ht1 : t ≤ 1) :
    retainedCount (applyDensityFilter vertices t r m₂ 1 scipy) ≤
      retainedCount (applyDensityFilter vertices t r m₁ 1 scipy) := by
  unfold applyDensityFilter retainedCount
  rw [applyDensityFilterMask_core_disabled, applyDensityFilterMask_core_disabled,
    count_true_map, count_true_map]
  apply List.countP_mono_left
  intro i hi h
  exact stageABKeep_mono hm ht0 ht1 (getD_mem_of_lt (List.mem_range.mp hi)) h

/-- Witness for C5 at a concrete input. -/
theorem density_filter_monotone_min_neighbors_witness :
    ((1:ℚ) ≤ 2 ∧ (0:ℚ) ≤ 1/2 ∧ (1/2:ℚ) ≤ 1) ∧
      retainedCount (applyDensityFilter [((0:ℚ),0,0), (1,0,0), (2,0,0)] (1/2) 10 2 1 true) ≤
        retainedCount (applyDensityFilter [((0:ℚ),0,0), (1,0,0), (2,0,0)] (1/2) 10 1 1 true) :=
  ⟨⟨by norm_num, by norm_num, by norm_num⟩,
    density_filter_monotone_min_neighbors _ _ _ _ _ _ (by norm_num) (by norm_num) (by norm_num)⟩


/-!
### RANSAC plane fitting (`GLBPointCloudRotationCorrector._ransac_plane_fitting`)

`glb_point_cloud_processor/glb_point_cloud_rotation_corrector.py`,
lines 481-608.  Randomness enters twice: the subsample draw
`np.random.choice(len(points), 50000, replace=False)` at line 494 uses the
*ambient* global numpy generator (whatever state it is in when the function
is called), while every draw after `np.random.seed(42)` at line 508 comes
from the freshly seeded generator.  The embedding therefore threads two
explicit parameters: `ambient`, the index list produced by the pre-seed
subsample draw, and `seedStream`, the per-iteration triples produced by the
seeded generator (`np.random.choice(len(ransac_points), 3, replace=False)`).
-/

/-- Configuration record of `_ransac_plane_fitting`. -/
structure RansacConfig where
  iterations : ℕ
  threshold : ℚ
  minPoints : ℕ

/-- `max_ransac_points = 50000` (line 490). -/
def maxRansacPoints : ℕ := 50000

/-- One iteration of the RANSAC loop (lines 510-541): take the three drawn
sample points, form the candidate normal as the cross product of two edge
vectors, skip if the three points are collinear (`‖normal‖ < 1e-8`, embedded
squared), otherwise count inliers (`|dot(p - p0, normal/‖normal‖)| <=
distance_threshold`, embedded squared) and keep the candidate when the count
strictly exceeds the best so far (first-found wins ties, as in the source).
The candidate is carried as the unnormalised cross product plus the
reference point; the source stores `normal / ‖normal‖`, a positive rescaling
that changes neither the skip test nor the inlier set. -/
def ransacIteration (ransacPoints : List Q3) (cfg : RansacConfig)
    (best : ℕ × Option (Q3 × Q3)) (idx : ℕ × ℕ × ℕ) : ℕ × Option (Q3 × Q3) :=
  let p0 := ransacPoints.getD idx.1 (0, 0, 0)
  let p1 := ransacPoints.getD idx.2.1 (0, 0, 0)
  let p2 := ransacPoints.getD idx.2.2 (0, 0, 0)
  let nrm := cross3 (sub3 p1 p0) (sub3 p2 p0)
  if normSq3 nrm < (1 / 10 ^ 8 : ℚ) ^ 2 then best
  else
    let inlierCount := ransacPoints.countP
      (fun q => decide ((dot3 (sub3 q p0) nrm) ^ 2 ≤ cfg.threshold ^ 2 * normSq3 nrm))
    if best.1 < inlierCount then (inlierCount, some (nrm, p0)) else best

/-- The full iteration loop, folding `ransacIteration` over
`range(max_iterations)` with `best_score = 0`, `best_normal = None`. -/
def ransacLoop (ransacPoints : List Q3) (cfg : RansacConfig)
    (seedStream : ℕ → ℕ × ℕ × ℕ) : ℕ × Option (Q3 × Q3) :=
  (List.range cfg.iterations).foldl
    (fun best it => ransacIteration ransacPoints cfg best (seedStream it)) (0, none)

/-- Success/failure structure of `_ransac_plane_fitting` (lines 481-545):
fail immediately when `len(points) < min_points`; otherwise run the loop on
the subsample (taken via `ambient` when `len(points) > 50000`) and fail when
the best score stays below `min_points`; otherwise return the best plane.
The subsequent SVD refinement (lines 547-591) is wrapped in `try/except`
blocks that fall back to this plane; it only replaces the value inside
`some` and never turns success into failure or vice versa, so the claims
about failure behaviour and determinism of success are settled here. -/
def ransacPlaneFitting (points : List Q3) (cfg : RansacConfig)
    (ambient : List ℕ) (seedStream : ℕ → ℕ × ℕ × ℕ) : Option (Q3 × Q3) :=
  if points.length < cfg.minPoints then none
  else
    let ransacPoints :=
      if maxRansacPoints < points.length then
        ambient.map (fun i => points.getD i (0, 0, 0))
      else points
    let best := ransacLoop ransacPoints cfg seedStream
    if best.1 < cfg.minPoints then none else best.2

/-- `best_score` as tested at line 543. -/
def ransacBestScore (points : List Q3) (cfg : RansacConfig)
    (ambient : List ℕ) (seedStream : ℕ → ℕ × ℕ × ℕ) : ℕ :=
  (ransacLoop
    (if maxRansacPoints < points.length then
      ambient.map (fun i => points.getD i (0, 0, 0))
    else points) cfg seedStream).1

/-- What `np.random.choice(n, 50000, replace=False)` guarantees about the
ambient subsample draw: 50000 distinct indices below `n`. -/
def validAmbient (ambient : List ℕ) (n : ℕ) : Prop :=
  ambient.length = maxRansacPoints ∧ ambient.Nodup ∧ ∀ i ∈ ambient, i < n

lemma ransacIteration_isSome_of_pos (rpts : List Q3) (cfg : RansacConfig)
    (best : ℕ × Option (Q3 × Q3)) (idx : ℕ × ℕ × ℕ)
    (hinv : 0 < best.1 → best.2.isSome = true) :
    0 < (ransacIteration rpts cfg best idx).1 →
      (ransacIteration rpts cfg best idx).2.isSome = true := by
  unfold ransacIteration
  dsimp only
  split_ifs with h1 h2
  · exact hinv
  · intro _; rfl
  · exact hinv

lemma ransacLoop_isSome_of_pos (rpts : List Q3) (cfg : RansacConfig)
    (seedStream : ℕ → ℕ × ℕ × ℕ) :
    0 < (ransacLoop rpts cfg seedStream).1 →
      (ransacLoop rpts cfg seedStream).2.isSome = true := by
  unfold ransacLoop
  generalize List.range cfg.iterations = its
  have key : ∀ (l : List ℕ) (init : ℕ × Option (Q3 × Q3)),
      (0 < init.1 → init.2.isSome = true) →
      0 < (l.foldl (fun best it => ransacIteration rpts cfg best (seedStream it)) init).1 →
        (l.foldl (fun best it => ransacIteration rpts cfg best (seedStream it)) init).2.isSome
          = true := by
    intro l
    induction l with
    | nil => intro init hinv; exact hinv
    | cons x xs ih =>
      intro init hinv
      exact ih _ (ransacIteration_isSome_of_pos rpts cfg init (seedStream x) hinv)
  exact key its (0, none) (by intro h; exact absurd h (lt_irrefl 0))

lemma ransacPlaneFitting_eq_none_iff (points : List Q3) (cfg : RansacConfig)
    (ambient : List ℕ) (seedStream : ℕ → ℕ × ℕ × ℕ) (hmin : 0 < cfg.minPoints) :
    ransacPlaneFitting points cfg ambient seedStream = none ↔
      (points.length < cfg.minPoints ∨
        ransacBestScore points cfg ambient seedStream < cfg.minPoints) := by
  unfold ransacPlaneFitting ransacBestScore
  by_cases h1 : points.length < cfg.minPoints
  · simp [h1]
  · simp only [h1, if_false, false_or]
    set rpts := if maxRansacPoints < points.length then
      ambient.map (fun i => points.getD i (0, 0, 0)) else points with hrpts
    by_cases h2 : (ransacLoop rpts cfg seedStream).1 < cfg.minPoints
    · simp [h2]
    · rw [if_neg h2]
      constructor
      · intro hnone
        have hpos : 0 < (ransacLoop rpts cfg seedStream).1 := by omega
        have := ransacLoop_isSome_of_pos rpts cfg seedStream hpos
        rw [hnone] at this
        cases this
      · intro hlt
        exact absurd hlt h2

/-- C4: with `min_inliers >= 3` fixed, `_ransac_plane_fitting` returns a
failure exactly when the point set has fewer than `min_inliers` points
(the immediate `InsufficientPoints` return at lines 484-486) or the best
candidate over all iterations has an inlier count below `min_inliers` (the
`FitFailed` return at lines 543-545); in every other case it returns a
plane.  In particular any call with fewer than 3 points satisfies the first
disjunct and fails without touching the points. -/
theorem ransac_failure_iff (points : List Q3) (cfg : RansacConfig)
    (ambient : List ℕ) (seedStream : ℕ → ℕ × ℕ × ℕ) (hmin : 3 ≤ cfg.minPoints) :
    ransacPlaneFitting points cfg ambient seedStream = none ↔
      (points.length < cfg.minPoints ∨
        ransacBestScore points cfg ambient seedStream < cfg.minPoints) :=
  ransacPlaneFitting_eq_none_iff points cfg ambient seedStream (by omega)

/-- Witness for C4 at a concrete input: two points with `min_inliers = 3`
fail via the first disjunct. -/
theorem ransac_failure_iff_witness :
    3 ≤ 3 ∧
      (ransacPlaneFitting [((0:ℚ),0,0), (1,0,0)] ⟨1, 1, 3⟩ [] (fun _ => (0, 1, 2)) = none ↔
        (([((0:ℚ),0,0), (1,0,0)] : List Q3).length < 3 ∨
          ransacBestScore [((0:ℚ),0,0), (1,0,0)] ⟨1, 1, 3⟩ [] (fun _ => (0, 1, 2)) < 3)) :=
  ⟨by norm_num, ransac_failure_iff _ _ _ _ (by norm_num)⟩


/-- Point set for the C3 counterexample: 50001 points, all in the plane
`z = 0`; index 3 carries `(0, 1, 0)` and every other index `i` carries
`(i, 0, 0)` on the x-axis. -/
def cePoint (i : ℕ) : Q3 := if i = 3 then (0, 1, 0) else ((i : ℚ), 0, 0)

/-- The 50001-point cloud (larger than the 50000-point sampling cap). -/
def cePoints : List Q3 := (List.range 50001).map cePoint

/-- One possible ambient subsample draw: every index except 3.  The resulting
subsample is entirely collinear, so every RANSAC candidate is skipped. -/
def ceIdxA : List ℕ := 0 :: 1 :: 2 :: List.range' 4 49997

/-- Another possible ambient subsample draw: every index except 2.  The first
candidate triple `(0, 1, 3)` is in general position and every subsample point
lies on its plane `z = 0`, so the fit succeeds. -/
def ceIdxB : List ℕ := 0 :: 1 :: 3 :: List.range' 4 49997

lemma cePoints_length : cePoints.length = 50001 := by
  simp [cePoints]

lemma cePoints_getD {i : ℕ} (h : i < 50001) : cePoints.getD i ((0:ℚ), 0, 0) = cePoint i := by
  unfold cePoints
  rw [List.getD_eq_getElem?_getD, List.getElem?_map, List.getElem?_range h]
  rfl

lemma cePoints_getD_z (i : ℕ) : (cePoints.getD i ((0:ℚ), 0, 0)).2.2 = 0 := by
  by_cases h : i < 50001
  · rw [cePoints_getD h]
    unfold cePoint
    split_ifs <;> rfl
  · rw [List.getD_eq_default _ _ (by rw [cePoints_length]; omega)]

lemma ceIdx_tail_length : (List.range' 4 49997).length = 49997 := List.length_range' 4 1 49997

lemma ceIdxA_valid : validAmbient ceIdxA 50001 := by
  refine ⟨?_, ?_, ?_⟩
  · show (0 :: 1 :: 2 :: List.range' 4 49997).length = maxRansacPoints
    rw [List.length_cons, List.length_cons, List.length_cons, ceIdx_tail_length]
    norm_num [maxRansacPoints]
  · simp only [ceIdxA, List.nodup_cons, List.mem_cons, List.mem_range'_1]
    exact ⟨by omega, by omega, by omega, List.nodup_range' 4 49997⟩
  · intro i hi
    simp only [ceIdxA, List.mem_cons, List.mem_range'_1] at hi
    omega

lemma ceIdxB_valid : validAmbient ceIdxB 50001 := by
  refine ⟨?_, ?_, ?_⟩
  · show (0 :: 1 :: 3 :: List.range' 4 49997).length = maxRansacPoints
    rw [List.length_cons, List.length_cons, List.length_cons, ceIdx_tail_length]
    norm_num [maxRansacPoints]
  · simp only [ceIdxB, List.nodup_cons, List.mem_cons, List.mem_range'_1]
    exact ⟨by omega, by omega, by omega, List.nodup_range' 4 49997⟩
  · intro i hi
    simp only [ceIdxB, List.mem_cons, List.mem_range'_1] at hi
    omega

lemma ceGetD0 : cePoints.getD 0 ((0:ℚ), 0, 0) = ((0:ℚ), 0, 0) := by
  rw [cePoints_getD (by norm_num)]
  norm_num [cePoint]

lemma ceGetD1 : cePoints.getD 1 ((0:ℚ), 0, 0) = ((1:ℚ), 0, 0) := by
  rw [cePoints_getD (by norm_num)]
  norm_num [cePoint]

lemma ceGetD2 : cePoints.getD 2 ((0:ℚ), 0, 0) = ((2:ℚ), 0, 0) := by
  rw [cePoints_getD (by norm_num)]
  norm_num [cePoint]

lemma ceGetD3 : cePoints.getD 3 ((0:ℚ), 0, 0) = ((0:ℚ), 1, 0) := by
  rw [cePoints_getD (by norm_num)]
  norm_num [cePoint]

lemma ceRptsA_eq : ceIdxA.map (fun i => cePoints.getD i ((0:ℚ), 0, 0)) =
    ((0:ℚ), 0, 0) :: ((1:ℚ), 0, 0) :: ((2:ℚ), 0, 0) ::
      (List.range' 4 49997).map (fun i => cePoints.getD i ((0:ℚ), 0, 0)) := by
  rw [show ceIdxA = 0 :: 1 :: 2 :: List.range' 4 49997 from rfl]
  simp only [List.map_cons, ceGetD0, ceGetD1, ceGetD2]

lemma ceRptsB_eq : ceIdxB.map (fun i => cePoints.getD i ((0:ℚ), 0, 0)) =
    ((0:ℚ), 0, 0) :: ((1:ℚ), 0, 0) :: ((0:ℚ), 1, 0) ::
      (List.range' 4 49997).map (fun i => cePoints.getD i ((0:ℚ), 0, 0)) := by
  rw [show ceIdxB = 0 :: 1 :: 3 :: List.range' 4 49997 from rfl]
  simp only [List.map_cons, ceGetD0, ceGetD1, ceGetD3]

lemma ceLoopA :
    ransacLoop (ceIdxA.map (fun i => cePoints.getD i ((0:ℚ), 0, 0))) ⟨1, 1, 3⟩
      (fun _ => (0, 1, 2)) = (0, none) := by
  unfold ransacLoop
  rw [show List.range 1 = [0] from rfl, List.foldl_cons, List.foldl_nil]
  simp only [ransacIteration, ceRptsA_eq, List.getD_cons_zero, List.getD_cons_succ]
  rw [if_pos (by norm_num [cross3, sub3, normSq3, dot3])]

lemma ceLoopB :
    ransacLoop (ceIdxB.map (fun i => cePoints.getD i ((0:ℚ), 0, 0))) ⟨1, 1, 3⟩
      (fun _ => (0, 1, 2)) = (50000, some (((0:ℚ), 0, 1), ((0:ℚ), 0, 0))) := by
  have hzmem : ∀ q ∈ ceIdxB.map (fun i => cePoints.getD i ((0:ℚ), 0, 0)), q.2.2 = 0 := by
    intro q hq
    obtain ⟨i, -, rfl⟩ := List.mem_map.mp hq
    exact cePoints_getD_z i
  have hlenB : (ceIdxB.map (fun i => cePoints.getD i ((0:ℚ), 0, 0))).length = 50000 := by
    rw [List.length_map]
    show (0 :: 1 :: 3 :: List.range' 4 49997).length = 50000
    rw [List.length_cons, List.length_cons, List.length_cons, ceIdx_tail_length]
  have hcross : cross3 (sub3 ((1:ℚ), 0, 0) ((0:ℚ), 0, 0))
      (sub3 ((0:ℚ), 1, 0) ((0:ℚ), 0, 0)) = ((0:ℚ), 0, 1) := by
    norm_num [cross3, sub3]
  have hcount : ∀ τ : ℚ,
      (ceIdxB.map (fun i => cePoints.getD i ((0:ℚ), 0, 0))).countP
        (fun q => decide ((dot3 (sub3 q ((0:ℚ), 0, 0)) ((0:ℚ), 0, 1)) ^ 2 ≤
          τ ^ 2 * normSq3 ((0:ℚ), 0, 1))) =
      (ceIdxB.map (fun i => cePoints.getD i ((0:ℚ), 0, 0))).length := by
    intro τ
    rw [List.countP_eq_length]
    intro q hq
    have hz := hzmem q hq
    have hdz : dot3 (sub3 q ((0:ℚ), 0, 0)) ((0:ℚ), 0, 1) = 0 := by
      simp [dot3, sub3, hz]
    rw [decide_eq_true_iff, hdz]
    have h1 : normSq3 ((0:ℚ), 0, 1) = 1 := by norm_num [normSq3, dot3]
    rw [h1]
    simpa using sq_nonneg τ
  unfold ransacLoop
  rw [show List.range 1 = [0] from rfl, List.foldl_cons, List.foldl_nil]
  simp only [ransacIteration, ceRptsB_eq, List.getD_cons_zero, List.getD_cons_succ]
  rw [hcross, if_neg (by norm_num [normSq3, dot3])]
  rw [← ceRptsB_eq, hcount, hlenB]
  norm_num

lemma ransacBestScore_of_big (points : List Q3) (cfg : RansacConfig)
    (ambient : List ℕ) (seedStream : ℕ → ℕ × ℕ × ℕ)
    (h : maxRansacPoints < points.length) :
    ransacBestScore points cfg ambient seedStream =
      (ransacLoop (ambient.map (fun i => points.getD i (0, 0, 0))) cfg seedStream).1 := by
  unfold ransacBestScore
  rw [if_pos h]

lemma cePoints_big : maxRansacPoints < cePoints.length := by
  rw [cePoints_length]
  norm_num [maxRansacPoints]

lemma ceBestScoreA : ransacBestScore cePoints ⟨1, 1, 3⟩ ceIdxA (fun _ => (0, 1, 2)) = 0 := by
  rw [ransacBestScore_of_big _ _ _ _ cePoints_big, ceLoopA]

lemma ceBestScoreB : ransacBestScore cePoints ⟨1, 1, 3⟩ ceIdxB (fun _ => (0, 1, 2)) = 50000 := by
  rw [ransacBestScore_of_big _ _ _ _ cePoints_big, ceLoopB]

lemma ceRunA_eq_none :
    ransacPlaneFitting cePoints ⟨1, 1, 3⟩ ceIdxA (fun _ => (0, 1, 2)) = none := by
  rw [ransacPlaneFitting_eq_none_iff _ _ _ _ (by norm_num)]
  right
  rw [ceBestScoreA]
  norm_num

lemma ceRunB_ne_none :
    ransacPlaneFitting cePoints ⟨1, 1, 3⟩ ceIdxB (fun _ => (0, 1, 2)) ≠ none := by
  rw [Ne, ransacPlaneFitting_eq_none_iff _ _ _ _ (by norm_num)]
  rintro (h | h)
  · rw [cePoints_length] at h
    norm_num at h
  · rw [ceBestScoreB] at h
    norm_num at h

/-- C3 as stated by the spec is false on the code: determinism fails for
point sets above the 50000-point sampling cap because `np.random.seed(42)`
(line 508) is executed only *after* the subsample draw
`np.random.choice(len(points), 50000, replace=False)` (line 494), so that
draw depends on the hidden ambient generator state, which differs between
two runs.  On the 50001-point cloud `cePoints` with one iteration,
threshold 1 and `min_points = 3`, the valid ambient draw `ceIdxA` (all
indices but 3) yields an all-collinear subsample and the fit fails, while
the equally valid draw `ceIdxB` (all indices but 2) yields a successful
plane: two runs of the fitting function on the identical input and
configuration return different results. -/
theorem ransac_determinism_counterexample :
    ¬ (∀ (points : List Q3) (cfg : RansacConfig) (a₁ a₂ : List ℕ)
        (seedStream : ℕ → ℕ × ℕ × ℕ),
        validAmbient a₁ points.length → validAmbient a₂ points.length →
        ransacPlaneFitting points cfg a₁ seedStream =
          ransacPlaneFitting points cfg a₂ seedStream) := by
  intro hclaim
  have h := hclaim cePoints ⟨1, 1, 3⟩ ceIdxA ceIdxB (fun _ => (0, 1, 2))
    (by rw [cePoints_length]; exact ceIdxA_valid)
    (by rw [cePoints_length]; exact ceIdxB_valid)
  rw [ceRunA_eq_none] at h
  exact ceRunB_ne_none h.symm

/-- C3 (amended): for point sets of at most 50000 points the subsample
branch is never taken, every random draw comes from the generator seeded
with 42, and the fit result is independent of the ambient generator state:
two runs on identical input and configuration agree.  (For larger sets the
pre-seed subsample draw breaks this; see the counterexample.) -/
theorem ransac_deterministic_below_cap (points : List Q3) (cfg : RansacConfig)
    (a₁ a₂ : List ℕ) (seedStream : ℕ → ℕ × ℕ × ℕ)
    (hn : points.length ≤ maxRansacPoints) :
    ransacPlaneFitting points cfg a₁ seedStream =
      ransacPlaneFitting points cfg a₂ seedStream := by
  by_cases hmin : points.length < cfg.minPoints
  · simp [ransacPlaneFitting, hmin]
  · simp [ransacPlaneFitting, hmin, not_lt.mpr hn]

/-- Witness for amended C3 at a concrete input below the cap. -/
theorem ransac_deterministic_below_cap_witness :
    ([((0:ℚ), 0, 0)] : List Q3).length ≤ maxRansacPoints ∧
      ransacPlaneFitting [((0:ℚ), 0, 0)] ⟨1, 1, 3⟩ [0] (fun _ => (0, 1, 2)) =
        ransacPlaneFitting [((0:ℚ), 0, 0)] ⟨1, 1, 3⟩ [7] (fun _ => (0, 1, 2)) :=
  ⟨by norm_num [maxRansacPoints],
    ransac_deterministic_below_cap _ _ _ _ _ (by norm_num [maxRansacPoints])⟩


/-!
### Ground detection, `lowest_plane` branch
(`GLBPointCloudRotationCorrector._detect_ground_plane`)

`glb_point_cloud_processor/glb_point_cloud_rotation_corrector.py`,
lines 244-309 (duplicated verbatim in `glb_point_cloud_processor.py`,
lines 1841-1910).
-/

/-- Height-axis index selection (lines 256-267): `Z -> 2`, `Y -> 1`,
`-Y -> 1`, anything else defaults to `2`. -/
def heightAxisIndex (upAxis : String) : ℕ :=
  if upAxis = "Z" then 2 else if upAxis = "Y" then 1 else if upAxis = "-Y" then 1 else 2

/-- Coordinate access `p[a]` for `a < 3`. -/
def coordAt (a : ℕ) (p : Q3) : ℚ := if a = 0 then p.1 else if a = 1 then p.2.1 else p.2.2

/-- Failure behaviour of the `lowest_plane` candidate selection. -/
inductive GroundDetectError where
  /-- Models the Python `NameError` raised on the retry path (lines
  296-299): that path reads `z_values` and `z_min`, names that are assigned
  only in the `height_based` and `simple_test` branches of the same
  function, which the `elif` chain makes unreachable here, so the retry
  raises instead of retrying. -/
  | nameError
  /-- The explicit `return None, None, None, {}` failure (lines 302-304),
  reachable only after a successful retry. -/
  | insufficientCandidates
  deriving DecidableEq

/-- Candidate selection of the `lowest_plane` ground-detection branch
(lines 271-304): select all points within 5% of the extreme height
coordinate (minimum, or maximum for `-Y`); if fewer than
`min_ground_points` survive, the source enters the retry block at lines
295-299, whose first executed statement `ground_mask = z_values <= (z_min +
height_tolerance)` reads the unbound names `z_values`/`z_min` and raises
`NameError` — embedded as the explicit `nameError` error value.  (The
doubled-band retry and the `insufficientCandidates` failure that the spec
describes are dead code on every input.)  On success the surviving
candidates are handed to `_ransac_plane_fitting`. -/
def lowestPlaneCandidates (vertices : List Q3) (minGroundPoints : ℕ) (upAxis : String) :
    Except GroundDetectError (List Q3) :=
  let minCoords := minPoint vertices
  let maxCoords := maxPoint vertices
  let ranges := sub3 maxCoords minCoords
  let heightAxis := heightAxisIndex upAxis
  let heightValues := vertices.map (coordAt heightAxis)
  let groundCandidates :=
    if upAxis = "-Y" then
      let heightMin := listMax heightValues
      vertices.filter (fun p =>
        decide (heightMin - coordAt heightAxis ranges * (5 / 100) ≤ coordAt heightAxis p))
    else
      let heightMin := listMin heightValues
      vertices.filter (fun p =>
        decide (coordAt heightAxis p ≤ heightMin + coordAt heightAxis ranges * (5 / 100)))
  if groundCandidates.length < minGroundPoints then
    Except.error GroundDetectError.nameError
  else
    Except.ok groundCandidates

/-- C2: the `lowest_plane` detector does NOT retry with a doubled band and
return an explicit failure when the 5% band is too small: the retry path
dereferences the unbound names `z_values`/`z_min` and raises `NameError`.
Concretely, on the four points `(0,0,0), (0,0,10), (0,0,20), (0,0,30)` with
up-axis `Z` and `min_ground_points = 3`, the 5% band `z <= 1.5` holds one
candidate, the retry block is entered, and the embedded evaluation reaches
the modelled `NameError`. -/
theorem lowest_plane_retry_name_error :
    lowestPlaneCandidates [((0:ℚ), 0, 0), (0, 0, 10), (0, 0, 20), (0, 0, 30)] 3 "Z" =
      Except.error GroundDetectError.nameError := by
  norm_num [lowestPlaneCandidates, heightAxisIndex, coordAt, minPoint, maxPoint,
    listMin, listMax, sub3, List.filter,
    (show ¬ (("Z" : String) = "-Y") from by decide)]

/-!
### Axis-aligned bounds (`GLBPointCloudBounds.calculate_bounds_and_visualize`)

`glb_point_cloud_processor/glb_point_cloud_bounds.py`, lines 156-201.
-/

/-- The `axis_aligned` branch (lines 156-168): per-coordinate reductions
`min_point = np.min(vertices, axis=0)`, `max_point = np.max(vertices,
axis=0)`, `extents = max_point - min_point`, `center = (min_point +
max_point) / 2`. -/
def calculateAabb (pts : List Q3) : Q3 × Q3 × Q3 × Q3 :=
  let minP := minPoint pts
  let maxP := maxPoint pts
  let extents := sub3 maxP minP
  let center := ((minP.1 + maxP.1) / 2, (minP.2.1 + maxP.2.1) / 2, (minP.2.2 + maxP.2.2) / 2)
  (minP, maxP, center, extents)

/-- Unit scaling (lines 195-201): `scale_factor = float(units)`,
`scaled_extents = extents * scale_factor`, reported as the scale array.
The bounds themselves are computed by `calculateAabb`, which does not take
`units` at all. -/
def scaledExtents (pts : List Q3) (units : ℚ) : Q3 :=
  ((calculateAabb pts).2.2.2.1 * units,
   (calculateAabb pts).2.2.2.2.1 * units,
   (calculateAabb pts).2.2.2.2.2 * units)

/-- C8: for every non-empty point set the axis-aligned bounding box returns
`min`/`max` as attained per-coordinate bounds over the points,
`center = (min + max) / 2` and `extents = max - min` exactly, and the
reported scale array is the componentwise product `extents * units`; the
bounds are computed without reference to `units`, so scaling never alters
`min`, `max`, or the fit. -/
theorem aabb_bounds_correct (pts : List Q3) (u : ℚ) (hne : pts ≠ []) :
    (∀ p ∈ pts,
      ((calculateAabb pts).1.1 ≤ p.1 ∧ p.1 ≤ (calculateAabb pts).2.1.1) ∧
      ((calculateAabb pts).1.2.1 ≤ p.2.1 ∧ p.2.1 ≤ (calculateAabb pts).2.1.2.1) ∧
      ((calculateAabb pts).1.2.2 ≤ p.2.2 ∧ p.2.2 ≤ (calculateAabb pts).2.1.2.2)) ∧
    ((calculateAabb pts).1.1 ∈ pts.map (·.1) ∧
      (calculateAabb pts).1.2.1 ∈ pts.map (·.2.1) ∧
      (calculateAabb pts).1.2.2 ∈ pts.map (·.2.2)) ∧
    ((calculateAabb pts).2.1.1 ∈ pts.map (·.1) ∧
      (calculateAabb pts).2.1.2.1 ∈ pts.map (·.2.1) ∧
      (calculateAabb pts).2.1.2.2 ∈ pts.map (·.2.2)) ∧
    (calculateAabb pts).2.2.1 =
      (((calculateAabb pts).1.1 + (calculateAabb pts).2.1.1) / 2,
       ((calculateAabb pts).1.2.1 + (calculateAabb pts).2.1.2.1) / 2,
       ((calculateAabb pts).1.2.2 + (calculateAabb pts).2.1.2.2) / 2) ∧
    (calculateAabb pts).2.2.2 = sub3 (calculateAabb pts).2.1 (calculateAabb pts).1 ∧
    scaledExtents pts u =
      ((calculateAabb pts).2.2.2.1 * u, (calculateAabb pts).2.2.2.2.1 * u,
       (calculateAabb pts).2.2.2.2.2 * u) := by
  have hmapne : ∀ f : Q3 → ℚ, pts.map f ≠ [] := by
    intro f h
    exact hne (List.map_eq_nil_iff.mp h)
  refine ⟨?_, ⟨?_, ?_, ?_⟩, ⟨?_, ?_, ?_⟩, rfl, rfl, rfl⟩
  · intro p hp
    exact ⟨⟨listMin_le_of_mem (List.mem_map_of_mem _ hp),
        le_listMax_of_mem (List.mem_map_of_mem _ hp)⟩,
      ⟨listMin_le_of_mem (List.mem_map_of_mem _ hp),
        le_listMax_of_mem (List.mem_map_of_mem _ hp)⟩,
      ⟨listMin_le_of_mem (List.mem_map_of_mem _ hp),
        le_listMax_of_mem (List.mem_map_of_mem _ hp)⟩⟩
  · exact listMin_mem (hmapne _)
  · exact listMin_mem (hmapne _)
  · exact listMin_mem (hmapne _)
  · exact listMax_mem (hmapne _)
  · exact listMax_mem (hmapne _)
  · exact listMax_mem (hmapne _)

/-- Witness for C8 at a concrete input. -/
theorem aabb_bounds_correct_witness :
    ([((0:ℚ), 0, 0), (1, 2, 3)] : List Q3) ≠ [] ∧
    ((∀ p ∈ ([((0:ℚ), 0, 0), (1, 2, 3)] : List Q3),
      ((calculateAabb [((0:ℚ), 0, 0), (1, 2, 3)]).1.1 ≤ p.1 ∧
        p.1 ≤ (calculateAabb [((0:ℚ), 0, 0), (1, 2, 3)]).2.1.1) ∧
      ((calculateAabb [((0:ℚ), 0, 0), (1, 2, 3)]).1.2.1 ≤ p.2.1 ∧
        p.2.1 ≤ (calculateAabb [((0:ℚ), 0, 0), (1, 2, 3)]).2.1.2.1) ∧
      ((calculateAabb [((0:ℚ), 0, 0), (1, 2, 3)]).1.2.2 ≤ p.2.2 ∧
        p.2.2 ≤ (calculateAabb [((0:ℚ), 0, 0), (1, 2, 3)]).2.1.2.2)) ∧
    ((calculateAabb [((0:ℚ), 0, 0), (1, 2, 3)]).1.1 ∈
        ([((0:ℚ), 0, 0), (1, 2, 3)] : List Q3).map (·.1) ∧
      (calculateAabb [((0:ℚ), 0, 0), (1, 2, 3)]).1.2.1 ∈
        ([((0:ℚ), 0, 0), (1, 2, 3)] : List Q3).map (·.2.1) ∧
      (calculateAabb [((0:ℚ), 0, 0), (1, 2, 3)]).1.2.2 ∈
        ([((0:ℚ), 0, 0), (1, 2, 3)] : List Q3).map (·.2.2)) ∧
    ((calculateAabb [((0:ℚ), 0, 0), (1, 2, 3)]).2.1.1 ∈
        ([((0:ℚ), 0, 0), (1, 2, 3)] : List Q3).map (·.1) ∧
      (calculateAabb [((0:ℚ), 0, 0), (1, 2, 3)]).2.1.2.1 ∈
        ([((0:ℚ), 0, 0), (1, 2, 3)] : List Q3).map (·.2.1) ∧
      (calculateAabb [((0:ℚ), 0, 0), (1, 2, 3)]).2.1.2.2 ∈
        ([((0:ℚ), 0, 0), (1, 2, 3)] : List Q3).map (·.2.2)) ∧
    (calculateAabb [((0:ℚ), 0, 0), (1, 2, 3)]).2.2.1 =
      (((calculateAabb [((0:ℚ), 0, 0), (1, 2, 3)]).1.1 +
          (calculateAabb [((0:ℚ), 0, 0), (1, 2, 3)]).2.1.1) / 2,
       ((calculateAabb [((0:ℚ), 0, 0), (1, 2, 3)]).1.2.1 +
          (calculateAabb [((0:ℚ), 0, 0), (1, 2, 3)]).2.1.2.1) / 2,
       ((calculateAabb [((0:ℚ), 0, 0), (1, 2, 3)]).1.2.2 +
          (calculateAabb [((0:ℚ), 0, 0), (1, 2, 3)]).2.1.2.2) / 2) ∧
    (calculateAabb [((0:ℚ), 0, 0), (1, 2, 3)]).2.2.2 =
      sub3 (calculateAabb [((0:ℚ), 0, 0), (1, 2, 3)]).2.1
        (calculateAabb [((0:ℚ), 0, 0), (1, 2, 3)]).1 ∧
    scaledExtents [((0:ℚ), 0, 0), (1, 2, 3)] 100 =
      ((calculateAabb [((0:ℚ), 0, 0), (1, 2, 3)]).2.2.2.1 * 100,
       (calculateAabb [((0:ℚ), 0, 0), (1, 2, 3)]).2.2.2.2.1 * 100,
       (calculateAabb [((0:ℚ), 0, 0), (1, 2, 3)]).2.2.2.2.2 * 100)) :=
  ⟨by simp, aabb_bounds_correct _ 100 (by simp)⟩

/-- C9: above `BIG_POINT_THRESHOLD = 200000` points the density estimator
takes the uniform-voxel tier before ever consulting the KDTree/scipy
branch: every point's reported neighbour count equals the number of points
whose voxel cell `floor((p - bbox_min) / radius)` coincides with its own,
minus one, regardless of whether the tree-based backend is available. -/
theorem big_cloud_uses_voxel_densities (vertices : List Q3) (r : ℚ) (scipy : Bool)
    (hbig : bigPointThreshold < vertices.length) :
    computeDensities vertices r scipy =
      vertices.map (fun p =>
        ((vertices.countP (fun q => decide (voxelIndex (minPoint vertices) r q =
          voxelIndex (minPoint vertices) r p)) : ℚ) - 1)) := by
  unfold computeDensities
  rw [if_pos hbig]
  dsimp only
  rw [List.map_map]
  apply List.map_congr_left
  intro p _
  simp only [Function.comp]
  congr 1
  rw [List.count, List.countP_map]
  norm_cast
  apply List.countP_congr
  intro q _
  simp

/-- Witness for C9: a 200001-point cloud crosses the threshold. -/
theorem big_cloud_uses_voxel_densities_witness :
    bigPointThreshold < (List.replicate 200001 ((0:ℚ), 0, 0)).length ∧
      computeDensities (List.replicate 200001 ((0:ℚ), 0, 0)) 1 true =
        (List.replicate 200001 ((0:ℚ), 0, 0)).map (fun p =>
          (((List.replicate 200001 ((0:ℚ), 0, 0)).countP (fun q =>
            decide (voxelIndex (minPoint (List.replicate 200001 ((0:ℚ), 0, 0))) 1 q =
              voxelIndex (minPoint (List.replicate 200001 ((0:ℚ), 0, 0))) 1 p)) : ℚ) - 1)) :=
  ⟨by rw [List.length_replicate]; norm_num [bigPointThreshold],
    big_cloud_uses_voxel_densities _ _ _
      (by rw [List.length_replicate]; norm_num [bigPointThreshold])⟩


/-!
### Rotation solver (`GLBPointCloudRotationCorrector._calculate_rotation_transform`)

`glb_point_cloud_processor/glb_point_cloud_rotation_corrector.py`,
lines 610-753 (duplicated in `glb_point_cloud_processor.py`, lines
2207-2333).  This part of the code is trigonometric, so it is embedded over
the real numbers; the embedding is necessarily noncomputable.
-/

/-- 3D vector with real coordinates. -/
abbrev R3 := ℝ × ℝ × ℝ

/-- `np.linalg.norm` of a 3-vector. -/
noncomputable def norm3 (v : R3) : ℝ := Real.sqrt (dot3 v v)

/-- `v / np.linalg.norm(v)` (line 628 and the axis normalisations). -/
noncomputable def normalize3 (v : R3) : R3 :=
  (v.1 / norm3 v, v.2.1 / norm3 v, v.2.2 / norm3 v)

/-- Componentwise scalar multiple of a 3-vector. -/
def scale3 {α : Type} [Mul α] (c : α) (v : α × α × α) : α × α × α :=
  (c * v.1, c * v.2.1, c * v.2.2)

/-- Target up vector (lines 614-625): `Z -> (0,0,1)`, `Y -> (0,1,0)`,
`-Y -> (0,-1,0)`, default `(0,0,1)`. -/
def targetNormalOf (upAxis : String) : R3 :=
  if upAxis = "Z" then (0, 0, 1)
  else if upAxis = "Y" then (0, 1, 0)
  else if upAxis = "-Y" then (0, -1, 0)
  else (0, 0, 1)

/-- Height-axis row of the 4×4 transform (lines 614-625): `Z -> 2`,
`Y -> 1`, `-Y -> 1`, default `2`. -/
def heightAxisOf (upAxis : String) : Fin 4 :=
  if upAxis = "Z" then 2 else if upAxis = "Y" then 1 else if upAxis = "-Y" then 1 else 2

/-- Skew-symmetric cross-product matrix `K` (lines 694-698). -/
def crossMatrix (a : R3) : Matrix (Fin 3) (Fin 3) ℝ :=
  Matrix.of ![![0, -a.2.2, a.2.1], ![a.2.2, 0, -a.1], ![-a.2.1, a.1, 0]]

/-- Rodrigues rotation matrix `I + sin(θ) K + (1 - cos(θ)) K @ K`
(lines 700-702). -/
noncomputable def rodriguesMatrix (axis : R3) (angle : ℝ) : Matrix (Fin 3) (Fin 3) ℝ :=
  1 + Real.sin angle • crossMatrix axis +
    (1 - Real.cos angle) • (crossMatrix axis * crossMatrix axis)

/-- `np.outer(axis, axis)` (line 687). -/
def outer3 (a : R3) : Matrix (Fin 3) (Fin 3) ℝ :=
  Matrix.of ![![a.1 * a.1, a.1 * a.2.1, a.1 * a.2.2],
              ![a.2.1 * a.1, a.2.1 * a.2.1, a.2.1 * a.2.2],
              ![a.2.2 * a.1, a.2.2 * a.2.1, a.2.2 * a.2.2]]

/-- The fixed 180° rotation about the X axis used for the antiparallel case
(lines 645-649). -/
def flip180Matrix : Matrix (Fin 3) (Fin 3) ℝ :=
  Matrix.of ![![1, 0, 0], ![0, -1, 0], ![0, 0, -1]]

/-- `np.clip(x, lo, hi)` for scalars. -/
noncomputable def clipR (x lo hi : ℝ) : ℝ := max lo (min x hi)

/-- `np.arctan2 y x`, embedded as the complex argument of `x + y i`. -/
noncomputable def arctan2 (y x : ℝ) : ℝ := Complex.arg ⟨x, y⟩

/-- `_rotation_matrix_to_euler_angles` (lines 736-753): XYZ Euler
extraction with the `sy < 1e-6` singular fallback. -/
noncomputable def rotationMatrixToEulerAngles (R : Matrix (Fin 3) (Fin 3) ℝ) : ℝ × ℝ × ℝ :=
  let sy := Real.sqrt (R 0 0 ^ 2 + R 1 0 ^ 2)
  if sy < 1e-6 then
    (arctan2 (-(R 1 2)) (R 1 1), arctan2 (-(R 2 0)) sy, 0)
  else
    (arctan2 (R 2 1) (R 2 2), arctan2 (-(R 2 0)) sy, arctan2 (R 1 0) (R 0 0))

/-- The 3×3 rotation matrix computed by `_calculate_rotation_transform`
(lines 627-704): normalise the input normal; identity when already aligned
(`|dot - 1| < 1e-6`), the fixed X-axis 180° matrix when antiparallel
(`|dot + 1| < 1e-6`); otherwise take the rotation axis `gn × target`: if
its length is below `1e-8`, either identity (`dot > 0`) or a 180° rotation
`2 outer(a, a) - I` about a normalised axis `a = gn × perp` built from the
coordinate axis least aligned with `gn` (`perp = e_x` when `|gn.x| < 0.9`
else `e_y`); in the general case Rodrigues' formula about the normalised
axis with angle `arccos(clip(dot, -1, 1))`. -/
noncomputable def rotationMatrixFor (groundNormal : R3) (upAxis : String) :
    Matrix (Fin 3) (Fin 3) ℝ :=
  let targetNormal := targetNormalOf upAxis
  let gn := normalize3 groundNormal
  let dotProduct := dot3 gn targetNormal
  if |dotProduct - 1| < 1e-6 then 1
  else if |dotProduct + 1| < 1e-6 then flip180Matrix
  else
    let rotationAxis := cross3 gn targetNormal
    let axisLen := norm3 rotationAxis
    if axisLen < 1e-8 then
      if 0 < dotProduct then 1
      else
        let perp : R3 := if |gn.1| < 9 / 10 then (1, 0, 0) else (0, 1, 0)
        let ax := normalize3 (cross3 gn perp)
        (2 : ℝ) • outer3 ax - 1
    else
      rodriguesMatrix (normalize3 rotationAxis) (Real.arccos (clipR dotProduct (-1) 1))

/-- The Euler angles returned next to the matrix (lines 640, 650, 707):
`(0,0,0)` for the aligned branch, `(π,0,0)` for the antiparallel branch,
and the XYZ extraction from the computed matrix otherwise. -/
noncomputable def rotationAnglesFor (groundNormal : R3) (upAxis : String) : ℝ × ℝ × ℝ :=
  let dotProduct := dot3 (normalize3 groundNormal) (targetNormalOf upAxis)
  if |dotProduct - 1| < 1e-6 then (0, 0, 0)
  else if |dotProduct + 1| < 1e-6 then (Real.pi, 0, 0)
  else rotationMatrixToEulerAngles (rotationMatrixFor groundNormal upAxis)

/-- Coordinate of a 3-vector indexed by a `Fin 4` row (the source indexes
`rotated_ground_point[height_axis]` with `height_axis` in `{1, 2}`). -/
def coordFin4 (v : R3) : Fin 4 → ℝ := ![v.1, v.2.1, v.2.2, 0]

/-- `rotation_matrix @ v` for a 3-vector (line 727). -/
def mulVec3 (M : Matrix (Fin 3) (Fin 3) ℝ) (v : R3) : R3 :=
  (M 0 0 * v.1 + M 0 1 * v.2.1 + M 0 2 * v.2.2,
   M 1 0 * v.1 + M 1 1 * v.2.1 + M 1 2 * v.2.2,
   M 2 0 * v.1 + M 2 1 * v.2.1 + M 2 2 * v.2.2)

/-- The composed 4×4 transform (lines 722-728): `np.eye(4)` with the
rotation in the upper-left 3×3 block and
`transform[height_axis, 3] = -rotated_ground_point[height_axis]`. -/
def composeTransform (R : Matrix (Fin 3) (Fin 3) ℝ) (rotated : R3) (heightAxis : Fin 4) :
    Matrix (Fin 4) (Fin 4) ℝ :=
  Matrix.of
    ![![R 0 0, R 0 1, R 0 2, if heightAxis = 0 then -(coordFin4 rotated 0) else 0],
      ![R 1 0, R 1 1, R 1 2, if heightAxis = 1 then -(coordFin4 rotated 1) else 0],
      ![R 2 0, R 2 1, R 2 2, if heightAxis = 2 then -(coordFin4 rotated 2) else 0],
      ![0, 0, 0, 1]]

/-- `_calculate_rotation_transform`: the rotation matrix, the Euler angles
and the composed 4×4 transform. -/
noncomputable def calculateRotationTransform (groundNormal groundPoint : R3) (upAxis : String) :
    Matrix (Fin 3) (Fin 3) ℝ × (ℝ × ℝ × ℝ) × Matrix (Fin 4) (Fin 4) ℝ :=
  (rotationMatrixFor groundNormal upAxis,
   rotationAnglesFor groundNormal upAxis,
   composeTransform (rotationMatrixFor groundNormal upAxis)
     (mulVec3 (rotationMatrixFor groundNormal upAxis) groundPoint)
     (heightAxisOf upAxis))

lemma heightAxisOf_cases (s : String) : heightAxisOf s = 1 ∨ heightAxisOf s = 2 := by
  unfold heightAxisOf
  split_ifs <;> simp

lemma composeTransform_height_entry (R : Matrix (Fin 3) (Fin 3) ℝ) (v : R3) (h : Fin 4)
    (hh : h = 1 ∨ h = 2) : composeTransform R v h h 3 = -(coordFin4 v h) := by
  rcases hh with rfl | rfl <;>
    simp [composeTransform, coordFin4]

lemma composeTransform_mulVec_zero (R : Matrix (Fin 3) (Fin 3) ℝ) (p : R3) (h : Fin 4)
    (hh : h = 1 ∨ h = 2) :
    (composeTransform R (mulVec3 R p) h).mulVec ![p.1, p.2.1, p.2.2, 1] h = 0 := by
  rcases hh with rfl | rfl <;>
    · simp [composeTransform, coordFin4, mulVec3, Matrix.mulVec, Matrix.dotProduct,
        Fin.sum_univ_four]
      ring

/-- C6: for every rotation-solver input (any detected normal, reference
point and up-axis string), the returned 4×4 transform's translation along
the height axis is the negation of the rotated reference point's height
coordinate, so applying the transform to the homogeneous reference point
yields height coordinate exactly 0. -/
theorem transform_zeroes_ground_height (groundNormal groundPoint : R3) (upAxis : String) :
    (calculateRotationTransform groundNormal groundPoint upAxis).2.2 (heightAxisOf upAxis) 3 =
      -(coordFin4 (mulVec3 (calculateRotationTransform groundNormal groundPoint upAxis).1
        groundPoint) (heightAxisOf upAxis)) ∧
    ((calculateRotationTransform groundNormal groundPoint upAxis).2.2.mulVec
      ![groundPoint.1, groundPoint.2.1, groundPoint.2.2, 1]) (heightAxisOf upAxis) = 0 := by
  constructor
  · exact composeTransform_height_entry _ _ _ (heightAxisOf_cases upAxis)
  · exact composeTransform_mulVec_zero _ _ _ (heightAxisOf_cases upAxis)

/-- C7: whenever the normalised ground normal's dot product with the target
up vector is within `1e-6` of 1, the solver takes the aligned branch and
returns the identity rotation with Euler angles `(0, 0, 0)`. -/
theorem aligned_normal_identity_rotation (groundNormal groundPoint : R3) (upAxis : String)
    (hd : |dot3 (normalize3 groundNormal) (targetNormalOf upAxis) - 1| < 1e-6) :
    (calculateRotationTransform groundNormal groundPoint upAxis).1 = 1 ∧
      (calculateRotationTransform groundNormal groundPoint upAxis).2.1 = (0, 0, 0) := by
  constructor
  · show rotationMatrixFor groundNormal upAxis = 1
    unfold rotationMatrixFor
    rw [if_pos hd]
  · show rotationAnglesFor groundNormal upAxis = (0, 0, 0)
    unfold rotationAnglesFor
    rw [if_pos hd]

/-- Witness for C7: the already-vertical normal `(0,0,1)` with up-axis `Z`. -/
theorem aligned_normal_identity_rotation_witness :
    |dot3 (normalize3 ((0:ℝ), 0, 1)) (targetNormalOf "Z") - 1| < 1e-6 ∧
      ((calculateRotationTransform ((0:ℝ), 0, 1) ((0:ℝ), 0, 0) "Z").1 = 1 ∧
        (calculateRotationTransform ((0:ℝ), 0, 1) ((0:ℝ), 0, 0) "Z").2.1 = (0, 0, 0)) :=
  ⟨by norm_num [dot3, normalize3, norm3, targetNormalOf, Real.sqrt_one],
   aligned_normal_identity_rotation _ _ _
     (by norm_num [dot3, normalize3, norm3, targetNormalOf, Real.sqrt_one])⟩


lemma dot3_pos_of_ne_zero {v : R3} (h : v ≠ (0, 0, 0)) : 0 < dot3 v v := by
  obtain ⟨x, y, z⟩ := v
  simp only [dot3]
  rcases lt_or_eq_of_le (by nlinarith [sq_nonneg x, sq_nonneg y, sq_nonneg z] :
      (0:ℝ) ≤ x * x + y * y + z * z) with hlt | heq
  · exact hlt
  · exfalso
    apply h
    have hx : x = 0 := by nlinarith [sq_nonneg x, sq_nonneg y, sq_nonneg z]
    have hy : y = 0 := by nlinarith [sq_nonneg x, sq_nonneg y, sq_nonneg z]
    have hz : z = 0 := by nlinarith [sq_nonneg x, sq_nonneg y, sq_nonneg z]
    simp [hx, hy, hz]

lemma dot3_normalize_self {v : R3} (h : 0 < dot3 v v) :
    dot3 (normalize3 v) (normalize3 v) = 1 := by
  have hn : norm3 v = Real.sqrt (dot3 v v) := rfl
  have hnpos : 0 < norm3 v := by
    rw [hn]
    exact Real.sqrt_pos.mpr h
  have hsq : norm3 v * norm3 v = dot3 v v := by
    rw [hn]
    exact Real.mul_self_sqrt (le_of_lt h)
  obtain ⟨x, y, z⟩ := v
  simp only [normalize3, dot3] at *
  field_simp
  linarith [hsq]

lemma flip180_so3 :
    (flip180Matrix.transpose * flip180Matrix = 1) ∧ flip180Matrix.det = 1 := by
  constructor
  · ext i j
    fin_cases i <;> fin_cases j <;>
      simp [flip180Matrix, Matrix.mul_apply, Matrix.transpose_apply, Matrix.one_apply,
        Fin.sum_univ_three, Matrix.vecHead, Matrix.vecTail, Function.comp]
  · rw [Matrix.det_fin_three]
    norm_num [flip180Matrix]

lemma outer_so3 (a : R3) (ha : dot3 a a = 1) :
    (((2 : ℝ) • outer3 a - 1).transpose * ((2 : ℝ) • outer3 a - 1) = 1) ∧
      ((2 : ℝ) • outer3 a - 1).det = 1 := by
  obtain ⟨a1, a2, a3⟩ := a
  simp only [dot3] at ha
  constructor
  · ext i j
    fin_cases i <;> fin_cases j <;>
      simp [outer3, Matrix.mul_apply, Matrix.transpose_apply, Matrix.sub_apply,
        Matrix.smul_apply, Matrix.one_apply, Fin.sum_univ_three, Matrix.vecHead,
        Matrix.vecTail, Function.comp]
    · linear_combination (4 * a1 * a1) * ha
    · linear_combination (4 * a1 * a2) * ha
    · linear_combination (4 * a1 * a3) * ha
    · linear_combination (4 * a2 * a1) * ha
    · linear_combination (4 * a2 * a2) * ha
    · linear_combination (4 * a2 * a3) * ha
    · linear_combination (4 * a3 * a1) * ha
    · linear_combination (4 * a3 * a2) * ha
    · linear_combination (4 * a3 * a3) * ha
  · rw [Matrix.det_fin_three]
    simp [outer3, Matrix.sub_apply, Matrix.smul_apply, Matrix.one_apply, Matrix.vecHead,
      Matrix.vecTail, Function.comp]
    linear_combination 2 * ha

lemma rodrigues_so3 (a : R3) (ha : dot3 a a = 1) (θ : ℝ) :
    ((rodriguesMatrix a θ).transpose * rodriguesMatrix a θ = 1) ∧ (rodriguesMatrix a θ).det = 1 := by
  obtain ⟨a1, a2, a3⟩ := a
  simp only [dot3] at ha
  have h2 : Real.sin θ ^ 2 + Real.cos θ ^ 2 = 1 := Real.sin_sq_add_cos_sq θ
  set s := Real.sin θ with hs
  set c := Real.cos θ with hc
  constructor
  · ext i j
    fin_cases i <;> fin_cases j <;>
      simp [rodriguesMatrix, crossMatrix, Matrix.mul_apply, Matrix.transpose_apply,
        Matrix.add_apply, Matrix.smul_apply, Matrix.one_apply, Fin.sum_univ_three,
        Matrix.vecHead, Matrix.vecTail, Function.comp]
    · linear_combination (((1 - c) ^ 2 * (a1 ^ 2 + a2 ^ 2 + a3 ^ 2 + 1) + s ^ 2 - 2 * (1 - c)) -
        (1 - c) ^ 2 * a1 * a1) * ha + (1 - a1 * a1) * h2
    · linear_combination (-(1 - c) ^ 2 * a1 * a2) * ha + (-(a1 * a2)) * h2
    · linear_combination (-(1 - c) ^ 2 * a1 * a3) * ha + (-(a1 * a3)) * h2
    · linear_combination (-(1 - c) ^ 2 * a2 * a1) * ha + (-(a2 * a1)) * h2
    · linear_combination (((1 - c) ^ 2 * (a1 ^ 2 + a2 ^ 2 + a3 ^ 2 + 1) + s ^ 2 - 2 * (1 - c)) -
        (1 - c) ^ 2 * a2 * a2) * ha + (1 - a2 * a2) * h2
    · linear_combination (-(1 - c) ^ 2 * a2 * a3) * ha + (-(a2 * a3)) * h2
    · linear_combination (-(1 - c) ^ 2 * a3 * a1) * ha + (-(a3 * a1)) * h2
    · linear_combination (-(1 - c) ^ 2 * a3 * a2) * ha + (-(a3 * a2)) * h2
    · linear_combination (((1 - c) ^ 2 * (a1 ^ 2 + a2 ^ 2 + a3 ^ 2 + 1) + s ^ 2 - 2 * (1 - c)) -
        (1 - c) ^ 2 * a3 * a3) * ha + (1 - a3 * a3) * h2
  · rw [Matrix.det_fin_three]
    simp [rodriguesMatrix, crossMatrix, Matrix.mul_apply, Matrix.add_apply,
      Matrix.smul_apply, Matrix.one_apply, Fin.sum_univ_three, Matrix.vecHead,
      Matrix.vecTail, Function.comp]
    linear_combination ((1 - c) ^ 2 * (a1 ^ 2 + a2 ^ 2 + a3 ^ 2 + 1) + s ^ 2 - 2 * (1 - c)) * ha
      + h2

/-- C10: for every nonzero input normal and every up-axis, the 3×3 matrix
returned by the rotation solver — whichever branch produced it (aligned
identity, fixed 180° matrix, perpendicular-axis 180° construction, or the
general Rodrigues case) — is orthogonal with determinant +1, so applying it
never scales, shears, or reflects the point cloud. -/
theorem rotation_matrix_special_orthogonal (groundNormal groundPoint : R3) (upAxis : String)
    (hn : groundNormal ≠ ((0:ℝ), 0, 0)) :
    (((calculateRotationTransform groundNormal groundPoint upAxis).1).transpose *
        (calculateRotationTransform groundNormal groundPoint upAxis).1 = 1) ∧
      ((calculateRotationTransform groundNormal groundPoint upAxis).1).det = 1 := by
  show ((rotationMatrixFor groundNormal upAxis).transpose * rotationMatrixFor groundNormal upAxis = 1) ∧
    (rotationMatrixFor groundNormal upAxis).det = 1
  have hpos : 0 < dot3 groundNormal groundNormal := dot3_pos_of_ne_zero hn
  have hunit : dot3 (normalize3 groundNormal) (normalize3 groundNormal) = 1 :=
    dot3_normalize_self hpos
  unfold rotationMatrixFor
  dsimp only
  split_ifs with hd1 hd2 hlen hdp hperp
  · simp
  · exact flip180_so3
  · simp
  · -- 180 degrees about gn × e_x, reachable when |gn.x| < 0.9
    apply outer_so3
    apply dot3_normalize_self
    apply dot3_pos_of_ne_zero
    intro hzero
    set gn := normalize3 groundNormal with hgn
    simp only [cross3, Prod.mk.injEq] at hzero
    obtain ⟨hz1, hz2, hz3⟩ := hzero
    have hg3 : gn.2.2 = 0 := by linarith
    have hg2 : gn.2.1 = 0 := by linarith
    simp only [dot3] at hunit
    have hone : gn.1 * gn.1 = 1 := by
      rw [hg2, hg3] at hunit
      linarith
    have habs : |gn.1| = 1 := by
      rcases mul_self_eq_one_iff.mp hone with h | h <;> rw [h] <;> norm_num
    rw [habs] at hperp
    norm_num at hperp
  · -- 180 degrees about gn × e_y, reachable when |gn.x| ≥ 0.9
    apply outer_so3
    apply dot3_normalize_self
    apply dot3_pos_of_ne_zero
    intro hzero
    set gn := normalize3 groundNormal with hgn
    simp only [cross3, Prod.mk.injEq] at hzero
    obtain ⟨hz1, hz2, hz3⟩ := hzero
    have hg1 : gn.1 = 0 := by linarith
    rw [hg1] at hperp
    norm_num at hperp
  · -- general Rodrigues branch
    apply rodrigues_so3
    apply dot3_normalize_self
    have hlen2 : (1e-8 : ℝ) ≤ norm3 (cross3 (normalize3 groundNormal) (targetNormalOf upAxis)) :=
      not_lt.mp hlen
    have : 0 < norm3 (cross3 (normalize3 groundNormal) (targetNormalOf upAxis)) := by
      linarith [hlen2]
    exact Real.sqrt_pos.mp this

/-- Witness for C10: the nonzero normal `(0,0,1)` with up-axis `Z`. -/
theorem rotation_matrix_special_orthogonal_witness :
    ((0:ℝ), 0, 1) ≠ ((0:ℝ), 0, 0) ∧
      ((((calculateRotationTransform ((0:ℝ), 0, 1) ((0:ℝ), 0, 0) "Z").1).transpose *
          (calculateRotationTransform ((0:ℝ), 0, 1) ((0:ℝ), 0, 0) "Z").1 = 1) ∧
        ((calculateRotationTransform ((0:ℝ), 0, 1) ((0:ℝ), 0, 0) "Z").1).det = 1) :=
  ⟨by simp, rotation_matrix_special_orthogonal _ _ _ (by simp)⟩

end VVL
